import Mathlib

/-! BadPowerUsb: a USB-presence watchdog

A shallow embedding of `BadPowerUsb.cpp` and the properties of its
specification that can be settled on it.

Modelling conventions

* `std::string` is a list of characters (`Str`).
* The run is a function of the command line and of an explicit environment
  `Env` (clock, uptime counter, device tree, the `-pathlog` directory); its
  effects are collected in a `World` value that is passed along explicitly.
* All clock reads of one run return the same instant (`Env.now`), and file
  operations on regular files succeed.
* `double` values are exact rationals; `time_t` and `int` are integers, with the
  32-bit range of `int` checked where the source's library checks it.
-/

namespace BadPowerUsb

/-- A `std::string`. -/
abbrev Str := List Char

/-! ## `std::stoi` and `parseInteger` (lines 118-128) -/

/-- The `isspace` of the C locale: space, `\t`, `\n`, `\v`, `\f`, `\r`. -/
def isspace (c : Char) : Bool :=
  c.toNat = 32 || (9 ≤ c.toNat && c.toNat ≤ 13)

/-- The `isdigit` of the C locale. -/
def isdigit (c : Char) : Bool :=
  48 ≤ c.toNat && c.toNat ≤ 57

/-- Value of a decimal digit character. -/
def digitVal (c : Char) : Nat := c.toNat - 48

/-- Value of a sequence of decimal digits, most significant first. -/
def decimalValue (ds : Str) : Nat :=
  ds.foldl (fun acc c => 10 * acc + digitVal c) 0

/-- Outcome of `std::stoi(s, &idx)`: one of its two exceptions, or the converted
value together with the number of characters consumed. -/
inductive StoiResult where
  | invalid_argument : StoiResult
  | out_of_range : StoiResult
  | ok (value : Int) (idx : Nat) : StoiResult
  deriving DecidableEq

/-- The smallest `int`. -/
def INT_MIN : Int := -2147483648

/-- The largest `int`. -/
def INT_MAX : Int := 2147483647

/-- Number of characters of the optional sign at the head of `s`. -/
def signLength (s : Str) : Nat :=
  if s.head? = some '-' ∨ s.head? = some '+' then 1 else 0

/-- The integer denoted by a sign flag and a digit sequence. -/
def signedValue (negative : Bool) (digits : Str) : Int :=
  if negative then -((decimalValue digits : Nat) : Int) else (decimalValue digits : Nat)

/-- The function `std::stoi(s, &idx)` in base 10, as `strtol` scans: leading white space is
skipped, one optional sign is read, then the longest run of decimal digits.
No digit: `invalid_argument`. A value outside `int`: `out_of_range`. -/
def stoi (s : Str) : StoiResult :=
  let ws := s.takeWhile isspace
  let afterWs := s.dropWhile isspace
  let negative : Bool := afterWs.head? = some '-'
  let afterSign := afterWs.drop (signLength afterWs)
  let digits := afterSign.takeWhile isdigit
  if digits = [] then StoiResult.invalid_argument
  else
    let value : Int := signedValue negative digits
    if value < INT_MIN ∨ INT_MAX < value then StoiResult.out_of_range
    else StoiResult.ok value (ws.length + signLength afterWs + digits.length)

/-- The function `parseInteger<int>(s, value)`: the returned flag and the content of the
out-parameter `value` afterwards. An exception of `stoi` is caught and leaves
`value` as it was. -/
def parseInteger (s : Str) (value : Int) : Bool × Int :=
  match stoi s with
  | StoiResult.ok v idx => (decide (idx = s.length) && decide (v > 0), v)
  | _ => (false, value)

/-- The whole of `s` is one base-10 integer denoting `n`, in the syntax that the
conversion consumes: optional leading white space, an optional sign, and at
least one decimal digit, with nothing after the digits. -/
def IsWholeInteger (s : Str) (n : Int) : Prop :=
  ∃ ws sign digits : Str,
    s = ws ++ sign ++ digits ∧
    (∀ c ∈ ws, isspace c = true) ∧
    digits ≠ [] ∧ (∀ c ∈ digits, isdigit c = true) ∧
    (((sign = [] ∨ sign = ['+']) ∧ n = (decimalValue digits : Nat)) ∨
      (sign = ['-'] ∧ n = -((decimalValue digits : Nat) : Int)))



/-! ## The device tree and `isDeviceConnected` (lines 45-79) -/

/-- The function `::toupper` in the C locale. -/
def toupper (c : Char) : Char := c.toUpper

/-- The expression `hay.find(needle)`: the position of the first occurrence of
`needle` in `hay`, and `none` for `string::npos`. -/
def find : Str → Str → Option Nat
  | [], needle => if needle = [] then some 0 else none
  | c :: cs, needle =>
    if needle.isPrefixOf (c :: cs) then some 0 else (find cs needle).map (· + 1)

/-- The device tree as the configuration manager presents it: a node carries the
result of `CM_Get_Device_IDA` (`none` when the call fails), the result of
`CM_Get_Child` and the result of `CM_Get_Sibling`. `DevTree.none` stands for a
call that does not return `CR_SUCCESS` (there is no such node). -/
inductive DevTree where
  | none : DevTree
  | node (devId : Option Str) (child : DevTree) (sibling : DevTree) : DevTree
  deriving DecidableEq

/-- One move from a node: to its first child or to its next sibling. -/
inductive Step where
  | child : Step
  | sibling : Step
  deriving DecidableEq

/-- A device instance handle, identified by the moves that lead to it from the node
the walk starts at. -/
abbrev DEVINST := List Step

/-- One call of `CM_Get_Device_IDA`: the node asked and the identifier obtained. -/
abbrev Visit := DEVINST × Option Str

/-- What one call of the lambda `checkDeviceTree` yields: its return value, the
calls of `CM_Get_Device_IDA` it made, in order, and the messages it passed to
`logAndPrint`, in order. -/
structure WalkResult where
  found : Bool
  visits : List Visit
  messages : List Str
  deriving DecidableEq

/-- The test of line 58 on the outcome of `CM_Get_Device_IDA`: the identifier was
read and `deviceInstancePathUpper` occurs in it. -/
def idMatches (deviceInstancePathUpper : Str) (devId : Option Str) : Bool :=
  match devId with
  | some currentDevicePath => (find currentDevicePath deviceInstancePathUpper).isSome
  | Option.none => false

/-- Re-roots the handles of a sub-walk under the move `s`. -/
def under (s : Step) (v : Visit) : Visit := (s :: v.1, v.2)

/-- The lambda `checkDeviceTree` (lines 54-76). On `DevTree.none` no call is made. -/
def checkDeviceTree (deviceInstancePathUpper : Str) : DevTree → WalkResult
  | DevTree.none => { found := false, visits := [], messages := [] }
  | DevTree.node devId child sibling =>
    if idMatches deviceInstancePathUpper devId then
      { found := true, visits := [([], devId)],
        messages := ["Found connected device: ".toList ++ devId.getD []] }
    else
      let c := checkDeviceTree deviceInstancePathUpper child
      if c.found then
        { found := true, visits := ([], devId) :: c.visits.map (under Step.child),
          messages := c.messages }
      else
        let s := checkDeviceTree deviceInstancePathUpper sibling
        { found := s.found,
          visits := ([], devId) :: (c.visits.map (under Step.child) ++
            s.visits.map (under Step.sibling)),
          messages := c.messages ++ s.messages }

/-- The nodes of a tree in pre-order over the first-child/next-sibling encoding:
the node, then its whole child subtree, then its next sibling (and what follows
it). -/
def preorder : DevTree → List Visit
  | DevTree.none => []
  | DevTree.node devId child sibling =>
    ([], devId) :: ((preorder child).map (under Step.child) ++
      (preorder sibling).map (under Step.sibling))

/-- The subtree reached from `t` by the moves of a handle. -/
def nodeAt : DevTree → DEVINST → DevTree
  | t, [] => t
  | DevTree.none, _ :: _ => DevTree.none
  | DevTree.node _ child _, Step.child :: rest => nodeAt child rest
  | DevTree.node _ _ sibling, Step.sibling :: rest => nodeAt sibling rest

/-- The elements of a list up to and including the first one that satisfies `p`
(all of them when none does). -/
def uptoFirst {α : Type} (p : α → Bool) : List α → List α
  | [] => []
  | x :: xs => if p x then [x] else x :: uptoFirst p xs

/-- Case folding of a string: every character through `toupper`. -/
def foldCase (s : Str) : Str := s.map toupper

/-- The identifier `devId` contains the pattern `p` under case-insensitive
comparison: after folding the case of both, the pattern occurs in the
identifier. -/
def ContainsIgnoreCase (devId p : Str) : Prop :=
  foldCase p <:+: foldCase devId

/-! ## Time stamps (lines 19-35 and 85-90) -/

/-- The fields of `struct tm` that the program's formats and `mktime` use. A
value-initialised `tm` (`tm t = {}`) has every field zero, `tm_isdst` included. -/
structure Tm where
  tm_sec : Int
  tm_min : Int
  tm_hour : Int
  tm_mday : Int
  tm_mon : Int
  tm_year : Int
  deriving DecidableEq

/-- The `tm t = {}` of line 86. -/
def Tm.zero : Tm :=
  { tm_sec := 0, tm_min := 0, tm_hour := 0, tm_mday := 0, tm_mon := 0, tm_year := 0 }

/-- A broken-down time as `localtime_s` produces it, with a year of four digits. -/
def Tm.valid (t : Tm) : Prop :=
  (0 ≤ t.tm_sec ∧ t.tm_sec ≤ 60) ∧ (0 ≤ t.tm_min ∧ t.tm_min ≤ 59) ∧
  (0 ≤ t.tm_hour ∧ t.tm_hour ≤ 23) ∧ (1 ≤ t.tm_mday ∧ t.tm_mday ≤ 31) ∧
  (0 ≤ t.tm_mon ∧ t.tm_mon ≤ 11) ∧ (70 ≤ t.tm_year ∧ t.tm_year ≤ 8099)

instance (t : Tm) : Decidable t.valid := by
  unfold Tm.valid
  exact inferInstance

/-- The character of a decimal digit. -/
def digitChar (d : Nat) : Char := Char.ofNat (48 + d)

/-- Decimal digits of `n`, most significant first, in front of `acc`. -/
def decimalAux : Nat → Nat → Str → Str
  | 0, _, acc => acc
  | fuel + 1, n, acc =>
    if n < 10 then digitChar n :: acc
    else decimalAux fuel (n / 10) (digitChar (n % 10) :: acc)

/-- A natural number as a decimal number, without padding. -/
def decimal (n : Nat) : Str := decimalAux (n + 1) n []

/-- An integer as `operator<<` prints it. -/
def showInt (i : Int) : Str :=
  if i < 0 then '-' :: decimal (-i).toNat else decimal i.toNat

/-- A two-digit, zero-padded field of `strftime` (`%m`, `%d`, `%H`, `%M`, `%S`). -/
def pad2 (v : Int) : Str :=
  [digitChar (v.toNat / 10 % 10), digitChar (v.toNat % 10)]

/-- The text that the format `%Y-%m-%d %H:%M:%S` produces for `t`. -/
def formatTimestamp (t : Tm) : Str :=
  decimal (t.tm_year + 1900).toNat ++ ['-'] ++ pad2 (t.tm_mon + 1) ++ ['-'] ++ pad2 t.tm_mday ++
    [' '] ++ pad2 t.tm_hour ++ [':'] ++ pad2 t.tm_min ++ [':'] ++ pad2 t.tm_sec

/-- The text that the format `BadPowerUsb_%Y%m.log` produces for `t`. -/
def formatLogFileName (t : Tm) : Str :=
  "BadPowerUsb_".toList ++ decimal (t.tm_year + 1900).toNat ++ pad2 (t.tm_mon + 1) ++
    ".log".toList

/-- The string left in a buffer of `maxsize` characters by `strftime`: the text when
it fits together with its terminator, and nothing otherwise. -/
def strftime (maxsize : Nat) (text : Str) : Str :=
  if text.length < maxsize then text else []

/-- Reads a decimal field of at most `maxDigits` digits: the value and the rest of
the input, or `none` when the input does not start with a digit. -/
def readField (maxDigits : Nat) (input : Str) : Option (Nat × Str) :=
  let digits := (input.take maxDigits).takeWhile isdigit
  if digits = [] then Option.none
  else some (decimalValue digits, input.drop digits.length)

/-- Reads one literal character of the format. -/
def readChar (c : Char) (input : Str) : Option Str :=
  match input with
  | d :: rest => if d = c then some rest else Option.none
  | [] => Option.none

/-- The extraction `ss >> get_time(&t, "%Y-%m-%d %H:%M:%S")` on a value-initialised
`t`. Leading white space is skipped; each conversion reads a decimal field
(four digits at most for the year, two for the others) and checks its range; a
blank in the format matches any run of white space. The extraction stops at
the first field or literal that does not match, and `t` keeps the fields stored
until then. The theorems use it on texts written in the format and on texts whose
year cannot be read, where the library leaves no choice. -/
def get_time (input : Str) : Tm :=
  let t := Tm.zero
  match readField 4 (input.dropWhile isspace) with
  | Option.none => t
  | some (year, r) =>
    let t := { t with tm_year := (year : Int) - 1900 }
    match readChar '-' r with
    | Option.none => t
    | some r =>
      match readField 2 r with
      | Option.none => t
      | some (mon, r) =>
        if mon < 1 ∨ 12 < mon then t
        else
          let t := { t with tm_mon := (mon : Int) - 1 }
          match readChar '-' r with
          | Option.none => t
          | some r =>
            match readField 2 r with
            | Option.none => t
            | some (mday, r) =>
              if mday < 1 ∨ 31 < mday then t
              else
                let t := { t with tm_mday := (mday : Int) }
                match readField 2 (r.dropWhile isspace) with
                | Option.none => t
                | some (hour, r) =>
                  if 23 < hour then t
                  else
                    let t := { t with tm_hour := (hour : Int) }
                    match readChar ':' r with
                    | Option.none => t
                    | some r =>
                      match readField 2 r with
                      | Option.none => t
                      | some (min, r) =>
                        if 59 < min then t
                        else
                          let t := { t with tm_min := (min : Int) }
                          match readChar ':' r with
                          | Option.none => t
                          | some r =>
                            match readField 2 r with
                            | Option.none => t
                            | some (sec, _) =>
                              if 60 < sec then t
                              else { t with tm_sec := (sec : Int) }

/-- Days from 1970-01-01 to the first day of month `m` (1 to 12) of year `y` in the
proleptic Gregorian calendar. -/
def daysFromCivil (y : Int) (m : Int) : Int :=
  let y' := if m ≤ 2 then y - 1 else y
  let era := y' / 400
  let yoe := y' - era * 400
  let mp := if m ≤ 2 then m + 9 else m - 3
  let doy := (153 * mp + 2) / 5
  let doe := yoe * 365 + yoe / 4 - yoe / 100 + doy
  era * 146097 + doe - 719468

/-- The largest `time_t` that the C runtime's `mktime` returns:
3000-12-31 23:59:59 UTC. -/
def MAX_TIME : Int := 32535215999

/-- The function `mktime` of the C runtime of Windows on a `tm` whose `tm_isdst` is
zero: the fields, taken as local standard time, are normalised and converted;
`timezone` is the difference in seconds between UTC and local standard time. The
result is `-1` when the time lies before the epoch or after `MAX_TIME`. -/
def mktime (timezone : Int) (t : Tm) : Int :=
  let y := t.tm_year + 1900 + t.tm_mon / 12
  let m := t.tm_mon % 12 + 1
  let days := daysFromCivil y m + (t.tm_mday - 1)
  let secs := days * 86400 + t.tm_hour * 3600 + t.tm_min * 60 + t.tm_sec + timezone
  if secs < 0 ∨ MAX_TIME < secs then -1 else secs

/-- The function `parseTimestamp` (lines 85-90). -/
def parseTimestamp (timezone : Int) (timestamp : Str) : Int :=
  mktime timezone (get_time timestamp)

/-! ## The log directory, the environment and the effects of a run -/

/-- An entry of the directory given with `-pathlog`: its file name, whether it is a
regular file, the time of its last write (seconds since the epoch) and, for a
regular file, its text as a stream in text mode reads it. -/
structure FileEntry where
  name : Str
  isRegular : Bool
  lastWrite : Int
  content : Str
  deriving DecidableEq

/-- What a run reads from its surroundings. -/
structure Env where
  /-- The value of `time(0)` and of `system_clock::now()`, in seconds since the epoch. -/
  now : Int
  /-- The broken-down local time that `localtime_s` gives for `now`. -/
  local_tm : Tm
  /-- Seconds between UTC and local standard time, as `mktime` applies them. -/
  timezone : Int
  /-- The value of `GetTickCount64()`. -/
  uptime_ms : Nat
  /-- The result of `CM_Locate_DevNodeA`: the root of the device tree, and `DevTree.none`
  when the call does not return `CR_SUCCESS`. -/
  devRoot : DevTree
  /-- Whether the directory given with `-pathlog` exists when the run starts. -/
  dirExists : Bool
  /-- The entries of that directory when the run starts. -/
  files : List FileEntry
  /-- The text `operator<<` produces for a `double`. -/
  showDouble : ℚ → Str

/-- The state a run acts on, and the record of what it did. -/
structure World where
  /-- Whether the directory given with `-pathlog` exists. -/
  dirExists : Bool
  /-- The entries of that directory. -/
  files : List FileEntry
  /-- The lines written to `cout`. -/
  stdout : List Str
  /-- The lines written to `cerr`. -/
  stderr : List Str
  /-- The commands passed to `system`, in order. -/
  launched : List Str
  /-- Whether `CM_Locate_DevNodeA` has been called. -/
  located : Bool
  /-- The calls of `CM_Get_Device_IDA`, in order. -/
  visited : List Visit

/-- The world a run starts in. -/
def World.initial (env : Env) : World :=
  { dirExists := env.dirExists, files := env.files, stdout := [], stderr := [],
    launched := [], located := false, visited := [] }

/-- The function `getCurrentTimestamp` (lines 19-26). -/
def getCurrentTimestamp (env : Env) : Str :=
  strftime 20 (formatTimestamp env.local_tm)

/-- The function `getCurrentLogFileName` (lines 28-35). -/
def getCurrentLogFileName (env : Env) : Str :=
  strftime 32 (formatLogFileName env.local_tm)

/-- Opening the file `name` of the directory for output and writing to it: an existing
regular file gets the text `newContent old` and the write time `now`; an entry
that is not a regular file cannot be opened and stays as it is; when there is
no entry, a regular file is created. -/
def writeFile (name : Str) (newContent : Str → Str) (now : Int) (files : List FileEntry) :
    List FileEntry :=
  if files.any (fun e => decide (e.name = name)) then
    files.map (fun e =>
      if e.name = name ∧ e.isRegular = true then
        { e with content := newContent e.content, lastWrite := now }
      else e)
  else files ++ [{ name := name, isRegular := true, lastWrite := now, content := newContent [] }]

/-- The function `fileExists` (lines 81-83) in the log directory. -/
def fileExists (files : List FileEntry) (filename : Str) : Bool :=
  files.any (fun e => decide (e.name = filename))

/-- The first line of an entry as `getline` reads it (empty when the entry cannot be
opened as a file). -/
def firstLine (e : FileEntry) : Str :=
  if e.isRegular then e.content.takeWhile (fun c => decide (c ≠ '\n')) else []

/-- The text that `getline` reads from a freshly opened `ifstream` on `name`: the first
line of a regular file, and the empty string when the file cannot be opened. -/
def readFirstLine (files : List FileEntry) (name : Str) : Str :=
  match files.find? (fun e => decide (e.name = name)) with
  | some e => firstLine e
  | Option.none => []

/-- The function `logAndPrint` (lines 37-43): the message goes, behind the current time
stamp, to `cout` and to the end of the log file of the current month. -/
def logAndPrint (env : Env) (message : Str) (w : World) : World :=
  let fullMessage := getCurrentTimestamp env ++ " - ".toList ++ message
  { w with
    stdout := w.stdout ++ [fullMessage],
    files := writeFile (getCurrentLogFileName env) (fun old => old ++ fullMessage ++ ['\n'])
      env.now w.files }

/-- The function `isDeviceConnected` (lines 45-79): its return value and the world it
leaves. -/
def isDeviceConnected (env : Env) (deviceInstancePath : Str) (w : World) : Bool × World :=
  let w := { w with located := true }
  match env.devRoot with
  | DevTree.none => (false, w)
  | DevTree.node devId child sibling =>
    let deviceInstancePathUpper := deviceInstancePath.map toupper
    let r := checkDeviceTree deviceInstancePathUpper (DevTree.node devId child sibling)
    let w := { w with visited := w.visited ++ r.visits }
    (r.found, r.messages.foldl (fun w m => logAndPrint env m w) w)

/-- Age of a directory entry as line 98 computes it: the whole hours since its last
write, divided by 24; both divisions truncate. -/
def fileAgeDays (now : Int) (e : FileEntry) : Int :=
  Int.tdiv (Int.tdiv (now - e.lastWrite) 3600) 24

/-- The condition under which `deleteOldLogs` removes an entry (lines 95-99). -/
def isOldLog (now : Int) (maxAgeDays : Int) (e : FileEntry) : Bool :=
  e.isRegular && "BadPowerUsb_".toList.isPrefixOf e.name &&
    decide (fileAgeDays now e > maxAgeDays)

/-- The function `deleteOldLogs` (lines 92-104) on the entries of the directory. -/
def deleteOldLogs (files : List FileEntry) (now : Int) (maxAgeDays : Int) : List FileEntry :=
  files.filter (fun e => !isOldLog now maxAgeDays e)

/-- The file name of the last-success record inside the log directory (line 166). -/
def timestampFileName : Str := "BadPowerUsb_last_success.txt".toList

/-- The entries of the directory that bear the name of the last-success record. -/
def recordEntries (files : List FileEntry) : List FileEntry :=
  files.filter (fun e => decide (e.name = timestampFileName))


/-! ## The command line and `main` (lines 106-224) -/

/-- The lines that `showHelp` prints (lines 106-116). -/
def helpText : List Str :=
  ["Usage: BadPowerUsb [options]".toList,
   "".toList,
   "Required Parameters:".toList,
   "  -uid_usb <uid_usb>        USB device instance path".toList,
   "  -wait_min <minutes>       Max allowed minutes without USB connection".toList,
   "  -uptime_min <minutes>     Min system uptime in minutes before executing the command".toList,
   "  -exec \"<command>\"       Command to execute when conditions are met".toList,
   "  -pathlog <path>           Directory to store logs".toList,
   "".toList,
   "Optional:".toList,
   "  -? /? ?                   Show this help text".toList]

/-- The function `showHelp`. -/
def showHelp (w : World) : World :=
  { w with stdout := w.stdout ++ helpText }

/-- The `map<string, string> args`: the binding of a key is the first pair that has it. -/
abbrev Args := List (Str × Str)

/-- The call `args.count(key)` as a truth value. -/
def Args.count (args : Args) (key : Str) : Bool := (args.lookup key).isSome

/-- The value `args[key]` of a key (the empty string when the key is not bound). -/
def Args.get (args : Args) (key : Str) : Str := (args.lookup key).getD []

/-- The loop of lines 141-146 over the remaining flags: a flag that starts with `-` and
has a successor binds that successor and skips it. -/
def parseArgs : List Str → Args → Args
  | [], args => args
  | [_], args => args
  | flag :: value :: rest, args =>
    if "-".toList.isPrefixOf flag then parseArgs rest ((flag, value) :: args)
    else parseArgs (value :: rest) args

/-- The condition of lines 134-136: the run is a request for help. -/
def isHelpRequest (flags : List Str) : Bool :=
  flags.isEmpty || flags.contains "-?".toList || flags.contains "/?".toList ||
    flags.contains "?".toList

/-- The condition of lines 148-151. -/
def missingRequired (args : Args) : Bool :=
  !args.count "-uid_usb".toList || (args.get "-uid_usb".toList).isEmpty ||
  !args.count "-exec".toList || (args.get "-exec".toList).isEmpty ||
  !args.count "-pathlog".toList || (args.get "-pathlog".toList).isEmpty ||
  !args.count "-wait_min".toList || !args.count "-uptime_min".toList

/-- The local variables of `main` that hold the validated parameters (lines 156-159). -/
structure Config where
  deviceInstancePath : Str
  exec_cmd : Str
  log_path : Str
  wait_min : Int
  uptime_min : Int
  deriving DecidableEq

/-- What lines 131-164 make of the command line. -/
inductive CommandLine where
  | help : CommandLine
  | missing : CommandLine
  | invalid : CommandLine
  | run (cfg : Config) : CommandLine
  deriving DecidableEq

/-- Lines 131-164 of `main`: the command line is a request for help, lacks a required
parameter, has a threshold that `parseInteger` rejects, or yields the parameters
of the run. The second threshold is parsed only when the first was accepted. -/
def parseCommandLine (flags : List Str) : CommandLine :=
  if isHelpRequest flags then CommandLine.help
  else
    let args := parseArgs flags []
    if missingRequired args then CommandLine.missing
    else
      let wait := parseInteger (args.get "-wait_min".toList) 0
      if !wait.1 then CommandLine.invalid
      else
        let uptime := parseInteger (args.get "-uptime_min".toList) 0
        if !uptime.1 then CommandLine.invalid
        else
          CommandLine.run
            { deviceInstancePath := args.get "-uid_usb".toList,
              exec_cmd := args.get "-exec".toList,
              log_path := args.get "-pathlog".toList,
              wait_min := wait.2,
              uptime_min := uptime.2 }

/-- The conversion of an `int` to `ULONGLONG` that the comparison of line 215 applies
to `uptime_min`. -/
def toULONGLONG (i : Int) : Nat := (i % 2 ^ 64).toNat

/-- The function `difftime`: the seconds from `time0` to `time1`. -/
def difftime (time1 time0 : Int) : Int := time1 - time0

/-- The conversion `static_cast<int>` of a `double`: the fraction is dropped. -/
def truncate (q : ℚ) : Int := if 0 ≤ q then ⌊q⌋ else ⌈q⌉

/-- Lines 175-223 of `main`: what the run does once `isDeviceConnected` has returned
`connected`. Gives the exit status and the world the run leaves. The `double` named
`diff_minutes` is the exact quotient of the seconds by 60. -/
def decideAndAct (cfg : Config) (env : Env) (connected : Bool) (w : World) : Int × World :=
  if connected then
    let w := { w with
      files := writeFile timestampFileName (fun _ => getCurrentTimestamp env) env.now w.files }
    let w := logAndPrint env "USB device found. Timestamp updated.".toList w
    (0, w)
  else if !fileExists w.files timestampFileName then
    let w := logAndPrint env "USB device not found. No timestamp file. Exiting.".toList w
    (0, w)
  else
    let lastTimestamp := readFirstLine w.files timestampFileName
    let w := logAndPrint env ("Last success timestamp read: ".toList ++ lastTimestamp) w
    let last := parseTimestamp env.timezone lastTimestamp
    let now := env.now
    let diff_minutes : ℚ := mkRat (difftime now last) 60
    let uptime_ms := env.uptime_ms
    let uptime_min_now : Nat := uptime_ms / (60 * 1000)
    let w := logAndPrint env
      ("USB device not found. Time since last success: ".toList ++ env.showDouble diff_minutes ++
        " min, Uptime: ".toList ++ decimal uptime_min_now ++ " min.".toList) w
    let w := logAndPrint env
      ("Time since last success (".toList ++ showInt (truncate diff_minutes) ++ ") ".toList ++
        (if diff_minutes ≥ (cfg.wait_min : ℚ) then ">= ".toList else "< ".toList) ++
        "wait_min (".toList ++ showInt cfg.wait_min ++ ")".toList) w
    let w := logAndPrint env
      ("System uptime (".toList ++ decimal uptime_min_now ++ ") ".toList ++
        (if uptime_min_now ≥ toULONGLONG cfg.uptime_min then ">= ".toList else "< ".toList) ++
        "uptime_min (".toList ++ showInt cfg.uptime_min ++ ")".toList) w
    if diff_minutes ≥ (cfg.wait_min : ℚ) ∧ uptime_min_now ≥ toULONGLONG cfg.uptime_min then
      let w := logAndPrint env ("Conditions met. Executing command: ".toList ++ cfg.exec_cmd) w
      let w := { w with launched := w.launched ++ [cfg.exec_cmd] }
      (0, w)
    else
      let w := logAndPrint env "Conditions NOT met. No action taken.".toList w
      (0, w)

/-- Lines 166-173 of `main`: the directory is created, old logs are deleted and the
start of the check is logged. -/
def prepare (cfg : Config) (env : Env) (w : World) : World :=
  let w := { w with dirExists := true }
  let w := { w with files := deleteOldLogs w.files env.now 365 }
  let w := logAndPrint env (List.replicate 60 '-') w
  logAndPrint env ("Starting check for USB device: ".toList ++ cfg.deviceInstancePath) w

/-- Lines 166-223 of `main`: the check itself, for validated parameters. Gives the exit
status and the world the run leaves. -/
def runCheck (cfg : Config) (env : Env) (w : World) : Int × World :=
  let w := prepare cfg env w
  let connected := isDeviceConnected env cfg.deviceInstancePath w
  decideAndAct cfg env connected.1 connected.2

/-- The function `main` (lines 130-224) on the arguments after the program name: the
exit status and the world the run leaves. -/
def main (flags : List Str) (env : Env) : Int × World :=
  match parseCommandLine flags with
  | CommandLine.help => (0, showHelp (World.initial env))
  | CommandLine.missing =>
    (1, { World.initial env with stderr := ["Missing required parameters.".toList] })
  | CommandLine.invalid =>
    (1, { World.initial env with stderr := ["Invalid wait_min or uptime_min value.".toList] })
  | CommandLine.run cfg => runCheck cfg env (World.initial env)

/-- The entries of the record after the record has been written with the text `text`. -/
def writtenRecord (text : Str) (now : Int) (records : List FileEntry) : List FileEntry :=
  if records.isEmpty then
    [{ name := timestampFileName, isRegular := true, lastWrite := now, content := text }]
  else
    records.map (fun e => if e.isRegular then { e with content := text, lastWrite := now } else e)

/-- The line that `logAndPrint` writes for a message. -/
def logLine (env : Env) (message : Str) : Str :=
  getCurrentTimestamp env ++ " - ".toList ++ message

/-- The condition of line 215 for a record that parses to the time `last`. -/
def conditionsMet (cfg : Config) (env : Env) (last : Int) : Prop :=
  mkRat (difftime env.now last) 60 ≥ (cfg.wait_min : ℚ) ∧
    env.uptime_ms / (60 * 1000) ≥ toULONGLONG cfg.uptime_min

instance (cfg : Config) (env : Env) (last : Int) : Decidable (conditionsMet cfg env last) := by
  unfold conditionsMet
  exact inferInstance


/-! ## Inputs of the examples -/

/-- A device tree with one USB device under the root; the instance part of its
identifier has lower-case hexadecimal digits. -/
def lowerCaseTree : DevTree :=
  DevTree.node (some "HTREE\\ROOT\\0".toList)
    (DevTree.node (some "USB\\VID_1234&PID_5678\\5&2a8f3b5&0&1".toList) DevTree.none DevTree.none)
    DevTree.none

/-- A tree of five nodes: the root, its children `A` and `C`, the child `B` of `A` and
a node `D` whose identifier cannot be read, the child of `C`. -/
def sampleTree : DevTree :=
  DevTree.node (some "HTREE\\ROOT\\0".toList)
    (DevTree.node (some "USB\\A".toList)
      (DevTree.node (some "USB\\B".toList) DevTree.none DevTree.none)
      (DevTree.node (some "USB\\C".toList)
        (DevTree.node Option.none DevTree.none DevTree.none)
        DevTree.none))
    DevTree.none

/-- An environment: 2024-01-15 12:30:45 UTC, 200 minutes of uptime, the directory with
the entries `files` and the device tree `devRoot`. -/
def sampleEnv (devRoot : DevTree) (files : List FileEntry) : Env :=
  { now := 1705321845,
    local_tm := { tm_sec := 45, tm_min := 30, tm_hour := 12, tm_mday := 15, tm_mon := 0,
                  tm_year := 124 },
    timezone := 0,
    uptime_ms := 200 * 60000,
    devRoot := devRoot,
    dirExists := true,
    files := files,
    showDouble := fun q => showInt (truncate q) }

/-- A command line with the thresholds `wait_min` and `uptime_min` given as texts. -/
def sampleFlags (wait_min uptime_min : Str) : List Str :=
  ["-uid_usb".toList, "VID_1234".toList, "-wait_min".toList, wait_min,
   "-uptime_min".toList, uptime_min, "-exec".toList, "shutdown /r /t 0".toList,
   "-pathlog".toList, "C:\\BadPowerUsb".toList]

/-- The parameters that `sampleFlags` yields for numeric thresholds. -/
def sampleConfig (wait_min uptime_min : Int) : Config :=
  { deviceInstancePath := "VID_1234".toList, exec_cmd := "shutdown /r /t 0".toList,
    log_path := "C:\\BadPowerUsb".toList, wait_min := wait_min, uptime_min := uptime_min }

/-- A device tree without the watched device. -/
def emptyTree : DevTree := DevTree.node (some "HTREE\\ROOT\\0".toList) DevTree.none DevTree.none

/-- A device tree with the watched device as the only child of the root. -/
def presentTree : DevTree :=
  DevTree.node (some "HTREE\\ROOT\\0".toList)
    (DevTree.node (some "USB\\VID_1234&PID_5678\\0001".toList) DevTree.none DevTree.none)
    DevTree.none

/-- A last-success record with the text `content`, written `age` seconds before the
time of `sampleEnv`. -/
def recordFile (content : Str) (age : Int) : FileEntry :=
  { name := timestampFileName, isRegular := true, lastWrite := 1705321845 - age,
    content := content }

/-! ## Conditions of the specification -/

/-- The parameter `key` is missing from the command line or has an empty value. -/
def MissingOrEmpty (args : Args) (key : Str) : Prop :=
  args.lookup key = Option.none ∨ args.lookup key = some []

/-- The threshold `key` is missing from the command line or its value does not parse as
a positive integer. -/
def NotPositiveInt (args : Args) (key : Str) : Prop :=
  ¬ ∃ s n, args.lookup key = some s ∧ IsWholeInteger s n ∧ 1 ≤ n ∧ n ≤ 2 ^ 31 - 1

/-- The command line lacks a required input or has a malformed threshold. -/
def BadCommandLine (args : Args) : Prop :=
  MissingOrEmpty args "-uid_usb".toList ∨ MissingOrEmpty args "-exec".toList ∨
  MissingOrEmpty args "-pathlog".toList ∨
  NotPositiveInt args "-wait_min".toList ∨ NotPositiveInt args "-uptime_min".toList

/-- The condition of the specification for the launch: the minutes elapsed since `last`,
as a fraction, reach `wait_min`, and the whole minutes of uptime reach `uptime_min`. -/
def ThresholdsReached (cfg : Config) (env : Env) (last : Int) : Prop :=
  ((env.now - last : Int) : ℚ) / 60 ≥ (cfg.wait_min : ℚ) ∧
    ((env.uptime_ms / 60000 : Nat) : Int) ≥ cfg.uptime_min

/-- The broken-down time `tm` is the local time of the instant `instant` while daylight
saving time is not in effect: taken as local standard time, it is that instant. While
daylight saving time is in effect the clock is ahead and this does not hold. -/
def IsStandardLocalTime (timezone : Int) (instant : Int) (tm : Tm) : Prop :=
  mktime timezone tm = instant

/-- An environment with the clock at `now`, shown as the local time `local_tm`, in a
time zone whose standard time is UTC, with 200 minutes of uptime, the device tree
`devRoot` and the directory with the entries `files`. -/
def clockEnv (now : Int) (local_tm : Tm) (devRoot : DevTree) (files : List FileEntry) : Env :=
  { now := now,
    local_tm := local_tm,
    timezone := 0,
    uptime_ms := 200 * 60000,
    devRoot := devRoot,
    dirExists := true,
    files := files,
    showDouble := fun q => showInt (truncate q) }

/-- A last-success record with the text `content`, last written at `lastWrite`. -/
def recordWrittenAt (content : Str) (lastWrite : Int) : FileEntry :=
  { name := timestampFileName, isRegular := true, lastWrite := lastWrite, content := content }

theorem isdigit_not_isspace {c : Char} (h : isdigit c = true) : isspace c = false := by
  simp only [isdigit, Bool.and_eq_true, decide_eq_true_eq] at h
  simp only [isspace, Bool.or_eq_false_iff, decide_eq_false_iff_not, Bool.and_eq_false_imp,
    decide_eq_true_eq]
  omega

theorem isdigit_ne_minus {c : Char} (h : isdigit c = true) : c ≠ '-' := by
  rintro rfl
  exact absurd h (by decide)

theorem isdigit_ne_plus {c : Char} (h : isdigit c = true) : c ≠ '+' := by
  rintro rfl
  exact absurd h (by decide)

/-- The scan of `stoi` on a string of the form white space, sign, digits. -/
theorem stoi_of_parts (ws sign digits : Str) (hws : ∀ c ∈ ws, isspace c = true)
    (hne : digits ≠ []) (hd : ∀ c ∈ digits, isdigit c = true)
    (hsign : sign = [] ∨ sign = ['+'] ∨ sign = ['-']) :
    stoi (ws ++ sign ++ digits) =
      if signedValue (decide (sign = ['-'])) digits < INT_MIN ∨
          INT_MAX < signedValue (decide (sign = ['-'])) digits then StoiResult.out_of_range
      else StoiResult.ok (signedValue (decide (sign = ['-'])) digits)
        (ws ++ sign ++ digits).length := by
  obtain ⟨d, ds, rfl⟩ := List.exists_cons_of_ne_nil hne
  have hdsp : isspace d = false := isdigit_not_isspace (hd d (by simp))
  have htd : List.takeWhile isdigit (d :: ds) = d :: ds :=
    List.takeWhile_eq_self_iff.mpr hd
  have hd1 : d ≠ '-' := isdigit_ne_minus (hd d (by simp))
  have hd2 : d ≠ '+' := isdigit_ne_plus (hd d (by simp))
  have hsm : isspace '-' = false := by decide
  have hsp : isspace '+' = false := by decide
  rcases hsign with rfl | rfl | rfl
  · simp only [stoi, List.append_assoc, List.nil_append, List.takeWhile_append_of_pos hws,
      List.dropWhile_append_of_pos hws]
    simp [List.takeWhile_cons, List.dropWhile_cons, hdsp, hd1, hd2, htd, signLength]
  · simp only [stoi, List.append_assoc, List.takeWhile_append_of_pos hws,
      List.dropWhile_append_of_pos hws]
    simp [List.takeWhile_cons, List.dropWhile_cons, hsp, htd, signLength]
    rw [show List.length ws + 1 + (ds.length + 1) = List.length ws + (ds.length + 1 + 1) by omega]
  · simp only [stoi, List.append_assoc, List.takeWhile_append_of_pos hws,
      List.dropWhile_append_of_pos hws]
    simp [List.takeWhile_cons, List.dropWhile_cons, hsm, htd, signLength]
    rw [show List.length ws + 1 + (ds.length + 1) = List.length ws + (ds.length + 1 + 1) by omega]

/-- A value converted by `stoi` is an `int`. -/
theorem stoi_ok_range {s : Str} {v : Int} {idx : Nat} (h : stoi s = StoiResult.ok v idx) :
    INT_MIN ≤ v ∧ v ≤ INT_MAX := by
  unfold stoi at h
  dsimp only at h
  split_ifs at h with h1 h2
  simp only [StoiResult.ok.injEq] at h
  rw [← h.1]
  exact ⟨not_lt.mp (fun hh => h2 (Or.inl hh)), not_lt.mp (fun hh => h2 (Or.inr hh))⟩

/-- When `stoi` converts and consumes the whole string, the string is one integer. -/
theorem isWholeInteger_of_stoi {s : Str} {v : Int} {idx : Nat}
    (h : stoi s = StoiResult.ok v idx) (hidx : idx = s.length) : IsWholeInteger s v := by
  have hs : s = s.takeWhile isspace ++ s.dropWhile isspace :=
    (List.takeWhile_append_dropWhile isspace s).symm
  have hwsp : ∀ c ∈ s.takeWhile isspace, isspace c = true :=
    fun c hc => List.mem_takeWhile_imp hc
  unfold stoi at h
  dsimp only at h
  generalize s.dropWhile isspace = afterWs at hs h
  generalize s.takeWhile isspace = ws at hs h hwsp
  have hsplit : afterWs = afterWs.take (signLength afterWs) ++ afterWs.drop (signLength afterWs) :=
    (List.take_append_drop _ afterWs).symm
  have hds : afterWs.drop (signLength afterWs) =
      (afterWs.drop (signLength afterWs)).takeWhile isdigit ++
        (afterWs.drop (signLength afterWs)).dropWhile isdigit :=
    (List.takeWhile_append_dropWhile isdigit _).symm
  have hdig : ∀ c ∈ (afterWs.drop (signLength afterWs)).takeWhile isdigit, isdigit c = true :=
    fun c hc => List.mem_takeWhile_imp hc
  generalize (afterWs.drop (signLength afterWs)).takeWhile isdigit = digits at h hds hdig
  split_ifs at h with hne hr
  simp only [StoiResult.ok.injEq] at h
  obtain ⟨hv, hi⟩ := h
  have htl : (afterWs.take (signLength afterWs)).length = signLength afterWs := by
    rcases afterWs with _ | ⟨c, cs⟩
    · simp [signLength]
    · simp only [signLength, List.length_take, List.length_cons]
      split_ifs <;> omega
  have hlen : s.length = ws.length + ((afterWs.take (signLength afterWs)).length +
      (digits.length + ((afterWs.drop (signLength afterWs)).dropWhile isdigit).length)) := by
    conv_lhs => rw [hs, hsplit, hds]
    simp [List.length_append]
  have hrest : (afterWs.drop (signLength afterWs)).dropWhile isdigit = [] := by
    apply List.eq_nil_of_length_eq_zero
    omega
  rw [hrest, List.append_nil] at hds
  refine ⟨ws, afterWs.take (signLength afterWs), digits, ?_, hwsp, hne, hdig, ?_⟩
  · rw [List.append_assoc, ← hds, ← hsplit]; exact hs
  · rcases afterWs with _ | ⟨c, cs⟩
    · left
      simp [signedValue] at hv
      exact ⟨Or.inl (by simp), hv.symm⟩
    · by_cases hc : c = '-'
      · right
        subst hc
        simp [signLength, signedValue] at hv ⊢
        exact hv.symm
      · left
        by_cases hp : c = '+'
        · subst hp
          simp [signLength, signedValue] at hv ⊢
          exact hv.symm
        · simp [signLength, signedValue, hc, hp] at hv ⊢
          exact hv.symm

/-- The flag of `parseInteger` characterised: the string is one integer in
`1 .. INT_MAX`; the out-parameter then holds it. -/
theorem parseInteger_spec (s : Str) (value : Int) :
    ((parseInteger s value).1 = true ↔ ∃ n, IsWholeInteger s n ∧ 1 ≤ n ∧ n ≤ 2 ^ 31 - 1) ∧
    (∀ n, IsWholeInteger s n → 1 ≤ n → n ≤ 2 ^ 31 - 1 →
      parseInteger s value = (true, n)) := by
  have key : ∀ n, IsWholeInteger s n → 1 ≤ n → n ≤ 2 ^ 31 - 1 →
      parseInteger s value = (true, n) := by
    rintro n ⟨ws, sign, digits, rfl, hws, hne, hd, hcase⟩ h1 h2
    have hsg : sign = [] ∨ sign = ['+'] ∨ sign = ['-'] := by
      rcases hcase with ⟨h | h, _⟩ | ⟨h, _⟩ <;> simp [h]
    have hst := stoi_of_parts ws sign digits hws hne hd hsg
    have hval : signedValue (decide (sign = ['-'])) digits = n := by
      rcases hcase with ⟨h | h, hn⟩ | ⟨h, hn⟩ <;> simp [h, hn, signedValue]
    simp only [hval] at hst
    have hrange : ¬ (n < INT_MIN ∨ INT_MAX < n) := by
      simp only [INT_MIN, INT_MAX]; omega
    rw [if_neg hrange] at hst
    simp only [parseInteger, hst]
    simp
    omega
  refine ⟨⟨?_, ?_⟩, key⟩
  · intro h
    unfold parseInteger at h
    split at h
    · rename_i v idx hst
      simp only [Bool.and_eq_true, decide_eq_true_eq] at h
      have hv := isWholeInteger_of_stoi hst h.1
      refine ⟨v, hv, by omega, ?_⟩
      have hr := stoi_ok_range hst
      simp only [INT_MAX] at hr
      omega
    · simp at h
  · rintro ⟨n, hn, h1, h2⟩
    rw [key n hn h1 h2]


/-! ## The tree walk -/

theorem find_isSome_iff (hay needle : Str) : (find hay needle).isSome = true ↔ needle <:+: hay := by
  induction hay with
  | nil =>
    by_cases h : needle = []
    · simp [find, h]
    · simp [find, h]
  | cons c cs ih =>
    rw [find, List.infix_cons_iff, ← ih]
    by_cases hp : needle.isPrefixOf (c :: cs) = true
    · simp [hp, List.isPrefixOf_iff_prefix.mp hp]
    · have hp' : ¬ needle <+: c :: cs := fun h => hp (List.isPrefixOf_iff_prefix.mpr h)
      simp [hp, hp']

theorem idMatches_iff (pat : Str) (devId : Option Str) :
    idMatches pat devId = true ↔ ∃ s, devId = some s ∧ pat <:+: s := by
  cases devId with
  | none => simp [idMatches]
  | some s => simp [idMatches, find_isSome_iff]

theorem uptoFirst_append {α : Type} (p : α → Bool) (l₁ l₂ : List α) :
    uptoFirst p (l₁ ++ l₂) = if l₁.any p then uptoFirst p l₁ else l₁ ++ uptoFirst p l₂ := by
  induction l₁ with
  | nil => simp
  | cons x xs ih =>
    rw [List.cons_append, List.any_cons]
    by_cases hx : p x = true
    · simp [uptoFirst, hx]
    · have hx' : p x = false := by simpa using hx
      simp only [uptoFirst, hx', Bool.false_eq_true, if_false, Bool.false_or, ih]
      split <;> simp

theorem uptoFirst_map_under (pat : Str) (s : Step) (l : List Visit) :
    uptoFirst (fun v => idMatches pat v.2) (l.map (under s)) =
      (uptoFirst (fun v => idMatches pat v.2) l).map (under s) := by
  induction l with
  | nil => rfl
  | cons x xs ih =>
    simp only [List.map_cons, uptoFirst, under]
    split
    · rfl
    · rw [List.map_cons]
      congr 1

theorem any_map_under (pat : Str) (s : Step) (l : List Visit) :
    (l.map (under s)).any (fun v => idMatches pat v.2) = l.any (fun v => idMatches pat v.2) := by
  induction l with
  | nil => rfl
  | cons x xs ih => simp [List.any_cons, under, ih]

theorem uptoFirst_of_not_any {α : Type} (p : α → Bool) (l : List α) (h : l.any p = false) :
    uptoFirst p l = l := by
  induction l with
  | nil => rfl
  | cons x xs ih =>
    simp only [List.any_cons, Bool.or_eq_false_iff] at h
    simp [uptoFirst, h.1, ih h.2]

theorem uptoFirst_initial {α : Type} (p : α → Bool) (l : List α) : uptoFirst p l <+: l := by
  induction l with
  | nil => exact List.prefix_refl _
  | cons x xs ih =>
    simp only [uptoFirst]
    split
    · exact ⟨xs, rfl⟩
    · exact (List.prefix_cons_inj x).mpr ih

/-- The walk reads the identifiers of the pre-order listing up to and including the
first match, and returns whether there is one. -/
theorem checkDeviceTree_spec (pat : Str) (t : DevTree) :
    (checkDeviceTree pat t).found = (preorder t).any (fun v => idMatches pat v.2) ∧
    (checkDeviceTree pat t).visits = uptoFirst (fun v => idMatches pat v.2) (preorder t) := by
  induction t with
  | none => exact ⟨rfl, rfl⟩
  | node devId child sibling ihc ihs =>
    obtain ⟨hcf, hcv⟩ := ihc
    obtain ⟨hsf, hsv⟩ := ihs
    have hAc := any_map_under pat Step.child (preorder child)
    have hAs := any_map_under pat Step.sibling (preorder sibling)
    have hUc := uptoFirst_map_under pat Step.child (preorder child)
    have hUs := uptoFirst_map_under pat Step.sibling (preorder sibling)
    by_cases hm : idMatches pat devId = true
    · simp [checkDeviceTree, preorder, uptoFirst, hm]
    · simp only [Bool.not_eq_true] at hm
      by_cases hc : (checkDeviceTree pat child).found = true
      · have hc' := hc
        rw [hcf] at hc'
        simp only [checkDeviceTree, preorder, uptoFirst, hm, hc, Bool.false_eq_true, if_false,
          if_true, List.any_cons, List.any_append, uptoFirst_append, hAc, hAs, hUc, hUs, hc',
          hcv, Bool.or_true, Bool.true_or, Bool.false_or, and_self]
      · simp only [Bool.not_eq_true] at hc
        have hc' := hc
        rw [hcf] at hc'
        simp only [checkDeviceTree, preorder, uptoFirst, hm, hc, Bool.false_eq_true, if_false,
          List.any_cons, List.any_append, uptoFirst_append, hAc, hAs, hUc, hUs, hc',
          hcv, hsv, hsf, Bool.false_or, uptoFirst_of_not_any _ _ hc', and_self]

/-- A walk that finds nothing logs nothing. -/
theorem checkDeviceTree_messages_of_not_found (pat : Str) (t : DevTree)
    (h : (checkDeviceTree pat t).found = false) : (checkDeviceTree pat t).messages = [] := by
  induction t with
  | none => rfl
  | node devId child sibling ihc ihs =>
    by_cases hm : idMatches pat devId = true
    · simp [checkDeviceTree, hm] at h
    · by_cases hc : (checkDeviceTree pat child).found = true
      · simp [checkDeviceTree, hm, hc] at h
      · simp only [checkDeviceTree, hm, hc, Bool.false_eq_true, if_false] at h ⊢
        simp only [Bool.not_eq_true] at hc
        rw [ihc hc, ihs h]
        rfl

/-- The pre-order listing holds exactly the nodes of the tree, each with its identifier. -/
theorem mem_preorder_iff (t : DevTree) (h : DEVINST) (devId : Option Str) :
    (h, devId) ∈ preorder t ↔ ∃ c s, nodeAt t h = DevTree.node devId c s := by
  induction t generalizing h with
  | none => cases h <;> simp [preorder, nodeAt]
  | node d child sibling ihc ihs =>
    cases h with
    | nil =>
      simp only [preorder, List.mem_cons, Prod.mk.injEq, true_and, List.mem_append, List.mem_map,
        under, nodeAt, DevTree.node.injEq]
      constructor
      · rintro (rfl | ⟨v, _, hv⟩ | ⟨v, _, hv⟩)
        · exact ⟨child, sibling, rfl, rfl, rfl⟩
        · simp at hv
        · simp at hv
      · rintro ⟨c, s, rfl, _, _⟩
        exact Or.inl rfl
    | cons st rest =>
      cases st with
      | child =>
        simp only [preorder, List.mem_cons, Prod.mk.injEq, List.mem_append, List.mem_map, under,
          nodeAt, ← ihc rest]
        constructor
        · rintro (⟨h, _⟩ | ⟨v, hv, h1, h2⟩ | ⟨v, _, h1, _⟩)
          · simp at h
          · simp only [List.cons.injEq, true_and] at h1
            rw [← h1, ← h2]; exact hv
          · simp at h1
        · intro hmem
          exact Or.inr (Or.inl ⟨(rest, devId), hmem, rfl, rfl⟩)
      | sibling =>
        simp only [preorder, List.mem_cons, Prod.mk.injEq, List.mem_append, List.mem_map, under,
          nodeAt, ← ihs rest]
        constructor
        · rintro (⟨h, _⟩ | ⟨v, _, h1, _⟩ | ⟨v, hv, h1, h2⟩)
          · simp at h
          · simp at h1
          · simp only [List.cons.injEq, true_and] at h1
            rw [← h1, ← h2]; exact hv
        · intro hmem
          exact Or.inr (Or.inr ⟨(rest, devId), hmem, rfl, rfl⟩)

/-- No handle occurs twice in the pre-order listing. -/
theorem preorder_handles_nodup (t : DevTree) : ((preorder t).map Prod.fst).Nodup := by
  induction t with
  | none => simp [preorder]
  | node d child sibling ihc ihs =>
    have hmapc : ((preorder child).map (under Step.child)).map Prod.fst =
        ((preorder child).map Prod.fst).map (List.cons Step.child) := by
      simp [List.map_map, Function.comp_def, under]
    have hmaps : ((preorder sibling).map (under Step.sibling)).map Prod.fst =
        ((preorder sibling).map Prod.fst).map (List.cons Step.sibling) := by
      simp [List.map_map, Function.comp_def, under]
    simp only [preorder, List.map_cons, List.map_append, hmapc, hmaps]
    rw [List.nodup_cons, List.nodup_append]
    refine ⟨?_, ihc.map (List.cons_injective), ihs.map (List.cons_injective), ?_⟩
    · simp
    · intro x hx hy
      simp only [List.mem_map] at hx hy
      obtain ⟨a, _, rfl⟩ := hx
      obtain ⟨b, _, hb⟩ := hy
      simp at hb

/-! ## Time stamps -/

theorem digitChar_toNat {k : Nat} (h : k < 10) : (digitChar k).toNat = 48 + k := by
  interval_cases k <;> rfl

theorem isdigit_digitChar {k : Nat} (h : k < 10) : isdigit (digitChar k) = true := by
  simp only [isdigit, digitChar_toNat h, Bool.and_eq_true, decide_eq_true_eq]
  omega

theorem digitVal_digitChar {k : Nat} (h : k < 10) : digitVal (digitChar k) = k := by
  simp only [digitVal, digitChar_toNat h]
  omega

theorem isspace_digitChar {k : Nat} (h : k < 10) : isspace (digitChar k) = false :=
  isdigit_not_isspace (isdigit_digitChar h)

theorem decimal_four {n : Nat} (h1 : 1000 ≤ n) (h2 : n ≤ 9999) :
    decimal n = [digitChar (n / 1000), digitChar (n / 100 % 10), digitChar (n / 10 % 10),
      digitChar (n % 10)] := by
  obtain ⟨k, rfl⟩ : ∃ k, n = k + 3 := ⟨n - 3, by omega⟩
  have e1 : ¬ (k + 3 < 10) := by omega
  have e2 : ¬ ((k + 3) / 10 < 10) := by omega
  have e3 : ¬ ((k + 3) / 10 / 10 < 10) := by omega
  have e4 : (k + 3) / 10 / 10 / 10 < 10 := by omega
  have d1 : (k + 3) / 10 / 10 / 10 = (k + 3) / 1000 := by omega
  have d2 : (k + 3) / 10 / 10 % 10 = (k + 3) / 100 % 10 := by omega
  have e5 : (k + 3) / 1000 < 10 := by omega
  simp only [decimal, decimalAux, e1, e2, e3, e4, e5, if_false, if_true, d1, d2]

theorem pad2_natCast (v : Nat) :
    pad2 (v : Int) = [digitChar (v / 10 % 10), digitChar (v % 10)] := by
  simp [pad2]

theorem readField_two (a b : Nat) (ha : a < 10) (hb : b < 10) (rest : Str) :
    readField 2 (digitChar a :: digitChar b :: rest) = some (10 * a + b, rest) := by
  simp [readField, List.takeWhile_cons, isdigit_digitChar ha, isdigit_digitChar hb, decimalValue,
    digitVal_digitChar ha, digitVal_digitChar hb]

theorem readField_four (a b c d : Nat) (ha : a < 10) (hb : b < 10) (hc : c < 10) (hd : d < 10)
    (rest : Str) :
    readField 4 (digitChar a :: digitChar b :: digitChar c :: digitChar d :: rest) =
      some (10 * (10 * (10 * a + b) + c) + d, rest) := by
  simp [readField, List.takeWhile_cons, isdigit_digitChar ha, isdigit_digitChar hb,
    isdigit_digitChar hc, isdigit_digitChar hd, decimalValue,
    digitVal_digitChar ha, digitVal_digitChar hb, digitVal_digitChar hc, digitVal_digitChar hd]

/-- Reading back a time stamp written in the format gives the fields it was written
from, whatever follows it. -/
theorem get_time_digits (Y M D h m s : Nat) (hY1 : 1000 ≤ Y) (hY2 : Y ≤ 9999)
    (hM1 : 1 ≤ M) (hM2 : M ≤ 12) (hD1 : 1 ≤ D) (hD2 : D ≤ 31) (hh : h ≤ 23) (hm : m ≤ 59)
    (hs : s ≤ 60) (tail : Str) :
    get_time (decimal Y ++ ['-'] ++ pad2 (M : Int) ++ ['-'] ++ pad2 (D : Int) ++ [' '] ++
      pad2 (h : Int) ++ [':'] ++ pad2 (m : Int) ++ [':'] ++ pad2 (s : Int) ++ tail) =
      { tm_sec := s, tm_min := m, tm_hour := h, tm_mday := D, tm_mon := (M : Int) - 1,
        tm_year := (Y : Int) - 1900 } := by
  have y3 : Y / 1000 < 10 := by omega
  have y2 : Y / 100 % 10 < 10 := by omega
  have y1 : Y / 10 % 10 < 10 := by omega
  have y0 : Y % 10 < 10 := by omega
  have hYv : 10 * (10 * (10 * (Y / 1000) + Y / 100 % 10) + Y / 10 % 10) + Y % 10 = Y := by omega
  have hMv : 10 * (M / 10 % 10) + M % 10 = M := by omega
  have hDv : 10 * (D / 10 % 10) + D % 10 = D := by omega
  have hhv : 10 * (h / 10 % 10) + h % 10 = h := by omega
  have hmv : 10 * (m / 10 % 10) + m % 10 = m := by omega
  have hsv : 10 * (s / 10 % 10) + s % 10 = s := by omega
  have hM3 : ¬ (M < 1 ∨ 12 < M) := by omega
  have hD3 : ¬ (D < 1 ∨ 31 < D) := by omega
  have hh3 : ¬ (23 < h) := by omega
  have hm3 : ¬ (59 < m) := by omega
  have hs3 : ¬ (60 < s) := by omega
  have hsp : isspace ' ' = true := by decide
  simp only [decimal_four hY1 hY2, pad2_natCast, List.cons_append, List.nil_append,
    List.append_assoc, get_time, List.dropWhile_cons, isspace_digitChar y3,
    isspace_digitChar (show h / 10 % 10 < 10 by omega), hsp, Bool.false_eq_true, if_false,
    if_true,
    readField_four _ _ _ _ y3 y2 y1 y0, hYv,
    readField_two _ _ (show M / 10 % 10 < 10 by omega) (show M % 10 < 10 by omega), hMv,
    readField_two _ _ (show D / 10 % 10 < 10 by omega) (show D % 10 < 10 by omega), hDv,
    readField_two _ _ (show h / 10 % 10 < 10 by omega) (show h % 10 < 10 by omega), hhv,
    readField_two _ _ (show m / 10 % 10 < 10 by omega) (show m % 10 < 10 by omega), hmv,
    readField_two _ _ (show s / 10 % 10 < 10 by omega) (show s % 10 < 10 by omega), hsv,
    readChar, hM3, hD3, hh3, hm3, hs3, Tm.zero]

/-- A valid broken-down time, written by the format and read back, is the same time. -/
theorem get_time_formatTimestamp (t : Tm) (ht : t.valid) (tail : Str) :
    get_time (formatTimestamp t ++ tail) = t := by
  obtain ⟨⟨s1, s2⟩, ⟨m1, m2⟩, ⟨h1, h2⟩, ⟨d1, d2⟩, ⟨o1, o2⟩, ⟨y1, y2⟩⟩ := ht
  obtain ⟨ts, tmi, th, td, tmo, ty⟩ := t
  simp only at s1 s2 m1 m2 h1 h2 d1 d2 o1 o2 y1 y2
  obtain ⟨Y, hY⟩ : ∃ Y : Nat, ty + 1900 = (Y : Int) := ⟨(ty + 1900).toNat, by omega⟩
  obtain ⟨M, hM⟩ : ∃ M : Nat, tmo + 1 = (M : Int) := ⟨(tmo + 1).toNat, by omega⟩
  obtain ⟨D, rfl⟩ : ∃ D : Nat, td = (D : Int) := ⟨td.toNat, by omega⟩
  obtain ⟨h, rfl⟩ : ∃ h : Nat, th = (h : Int) := ⟨th.toNat, by omega⟩
  obtain ⟨m, rfl⟩ : ∃ m : Nat, tmi = (m : Int) := ⟨tmi.toNat, by omega⟩
  obtain ⟨s, rfl⟩ : ∃ s : Nat, ts = (s : Int) := ⟨ts.toNat, by omega⟩
  have := get_time_digits Y M D h m s (by omega) (by omega) (by omega) (by omega) (by omega)
    (by omega) (by omega) (by omega) (by omega) tail
  simp only [formatTimestamp, hY, hM, Int.toNat_ofNat]
  rw [this]
  simp only [Tm.mk.injEq, true_and]
  omega

/-- A valid broken-down time is written as 19 characters, none of them a line break. -/
theorem formatTimestamp_shape (t : Tm) (ht : t.valid) :
    (formatTimestamp t).length = 19 ∧
      (formatTimestamp t).takeWhile (fun c => decide (c ≠ '\n')) = formatTimestamp t := by
  obtain ⟨_, _, _, _, _, ⟨y1, y2⟩⟩ := ht
  obtain ⟨Y, hY⟩ : ∃ Y : Nat, t.tm_year + 1900 = (Y : Int) := ⟨(t.tm_year + 1900).toNat, by omega⟩
  have hne : ∀ k, k < 10 → digitChar k ≠ '\n' := by
    intro k hk heq
    have h48 := digitChar_toNat hk
    rw [heq] at h48
    have h10 : ('\n').toNat = 10 := rfl
    omega
  refine ⟨?_, ?_⟩
  · simp [formatTimestamp, hY, decimal_four (show 1000 ≤ Y by omega) (show Y ≤ 9999 by omega),
      pad2]
  · rw [List.takeWhile_eq_self_iff]
    intro c hc
    simp only [formatTimestamp, hY, Int.toNat_ofNat,
      decimal_four (show 1000 ≤ Y by omega) (show Y ≤ 9999 by omega), pad2, List.mem_append,
      List.mem_cons, List.mem_singleton, List.not_mem_nil, or_false] at hc
    simp only [ne_eq, decide_eq_true_eq]
    rcases hc with ((((((((((h | h | h | h) | h) | h | h) | h) | h | h) | h) | h | h) | h) | h | h) | h) | h | h <;>
      first
      | (rw [h]; exact hne _ (by omega))
      | (rw [h]; decide)

theorem getCurrentTimestamp_of_valid (env : Env) (ht : env.local_tm.valid) :
    getCurrentTimestamp env = formatTimestamp env.local_tm := by
  simp [getCurrentTimestamp, strftime, (formatTimestamp_shape _ ht).1]

/-- The log file of the month is never the last-success record. -/
theorem getCurrentLogFileName_ne (env : Env) : getCurrentLogFileName env ≠ timestampFileName := by
  intro h
  unfold getCurrentLogFileName strftime at h
  split at h
  · have h1 : (formatLogFileName env.local_tm).getLast? = some 'g' := by
      unfold formatLogFileName
      rw [List.getLast?_append]
      rfl
    rw [h] at h1
    exact absurd h1 (by decide)
  · exact absurd h (by decide)

/-! ## The log directory -/

theorem filter_map_of_stable {α : Type} (p : α → Bool) (g : α → α) (hp : ∀ a, p (g a) = p a)
    (l : List α) : (l.map g).filter p = (l.filter p).map g := by
  induction l with
  | nil => rfl
  | cons a l ih =>
    by_cases h : p a = true
    · simp [List.filter_cons, hp, h, ih]
    · simp [List.filter_cons, hp, h, ih]

theorem fileExists_eq (files : List FileEntry) :
    fileExists files timestampFileName = !(recordEntries files).isEmpty := by
  induction files with
  | nil => rfl
  | cons e l ih =>
    by_cases h : e.name = timestampFileName
    · simp [fileExists, recordEntries, List.filter_cons, h]
    · simp only [fileExists, recordEntries, List.any_cons, List.filter_cons, h, decide_False,
        Bool.false_or, Bool.false_eq_true, if_false] at ih ⊢
      exact ih

theorem find?_eq_head?_recordEntries (files : List FileEntry) :
    files.find? (fun e => decide (e.name = timestampFileName)) = (recordEntries files).head? := by
  induction files with
  | nil => rfl
  | cons e l ih =>
    by_cases h : e.name = timestampFileName
    · simp [recordEntries, List.filter_cons, List.find?_cons, h]
    · simp only [recordEntries, List.filter_cons, List.find?_cons, h, decide_False,
        Bool.false_eq_true, if_false] at ih ⊢
      exact ih

theorem readFirstLine_eq (files : List FileEntry) :
    readFirstLine files timestampFileName =
      match (recordEntries files).head? with
      | some e => firstLine e
      | Option.none => [] := by
  unfold readFirstLine
  rw [find?_eq_head?_recordEntries]

/-- Writing a file of another name leaves the entries of the record as they are. -/
theorem recordEntries_writeFile_ne (name : Str) (h : name ≠ timestampFileName)
    (f : Str → Str) (now : Int) (files : List FileEntry) :
    recordEntries (writeFile name f now files) = recordEntries files := by
  unfold writeFile
  split
  · unfold recordEntries
    rw [filter_map_of_stable]
    · refine (List.map_congr_left ?_).trans (List.map_id _)
      intro e he
      have hn : e.name = timestampFileName := by
        simpa using (List.mem_filter.mp he).2
      have hne : ¬ (e.name = name ∧ e.isRegular = true) := fun hh => h (hh.1.symm.trans hn)
      simp [hne]
    · intro e
      split <;> rfl
  · simp [recordEntries, List.filter_append, List.filter_cons, h]

theorem recordEntries_writeFile_self (text : Str) (now : Int) (files : List FileEntry) :
    recordEntries (writeFile timestampFileName (fun _ => text) now files) =
      writtenRecord text now (recordEntries files) := by
  have hex := fileExists_eq files
  unfold fileExists at hex
  unfold writeFile writtenRecord
  by_cases hany : (files.any fun e => decide (e.name = timestampFileName)) = true
  · rw [if_pos hany]
    rw [hany] at hex
    have hne : (recordEntries files).isEmpty = false := by
      simpa using hex.symm
    rw [hne]
    simp only [Bool.false_eq_true, if_false]
    unfold recordEntries
    rw [filter_map_of_stable]
    · apply List.map_congr_left
      intro e he
      have hn : e.name = timestampFileName := by
        simpa using (List.mem_filter.mp he).2
      by_cases hr : e.isRegular = true <;> simp [hn, hr]
    · intro e
      split <;> rfl
  · rw [if_neg hany]
    simp only [Bool.not_eq_true] at hany
    rw [hany] at hex
    have hne : (recordEntries files).isEmpty = true := by
      simpa using hex.symm
    rw [hne]
    have hnil : recordEntries files = [] := List.isEmpty_iff.mp hne
    simp only [if_true]
    unfold recordEntries at hnil ⊢
    rw [List.filter_append, hnil]
    simp [List.filter_cons]

/-- Housekeeping keeps exactly the entries of the record that are not old logs. -/
theorem recordEntries_deleteOldLogs (files : List FileEntry) (now maxAgeDays : Int) :
    recordEntries (deleteOldLogs files now maxAgeDays) =
      (recordEntries files).filter (fun e => !isOldLog now maxAgeDays e) := by
  unfold recordEntries deleteOldLogs
  rw [List.filter_filter, List.filter_filter]
  congr 1
  funext e
  exact Bool.and_comm _ _

/-! ## The effects of logging and of the presence check -/

theorem logAndPrint_recordEntries (env : Env) (m : Str) (w : World) :
    recordEntries (logAndPrint env m w).files = recordEntries w.files := by
  simp only [logAndPrint]
  rw [recordEntries_writeFile_ne _ (getCurrentLogFileName_ne env)]

theorem logAndPrint_stdout (env : Env) (m : Str) (w : World) :
    (logAndPrint env m w).stdout = w.stdout ++ [logLine env m] := rfl

theorem logAndPrint_launched (env : Env) (m : Str) (w : World) :
    (logAndPrint env m w).launched = w.launched := rfl

theorem logAndPrint_visited (env : Env) (m : Str) (w : World) :
    (logAndPrint env m w).visited = w.visited := rfl

theorem logAndPrint_located (env : Env) (m : Str) (w : World) :
    (logAndPrint env m w).located = w.located := rfl

theorem logAndPrint_stderr (env : Env) (m : Str) (w : World) :
    (logAndPrint env m w).stderr = w.stderr := rfl

theorem logAndPrint_dirExists (env : Env) (m : Str) (w : World) :
    (logAndPrint env m w).dirExists = w.dirExists := rfl

/-- Logging a list of messages changes the output and the log file only. -/
theorem foldl_logAndPrint (env : Env) (ms : List Str) (w : World) :
    (ms.foldl (fun w m => logAndPrint env m w) w).launched = w.launched ∧
    (ms.foldl (fun w m => logAndPrint env m w) w).visited = w.visited ∧
    (ms.foldl (fun w m => logAndPrint env m w) w).located = w.located ∧
    (ms.foldl (fun w m => logAndPrint env m w) w).stderr = w.stderr ∧
    (ms.foldl (fun w m => logAndPrint env m w) w).dirExists = w.dirExists ∧
    recordEntries (ms.foldl (fun w m => logAndPrint env m w) w).files = recordEntries w.files ∧
    (ms.foldl (fun w m => logAndPrint env m w) w).stdout = w.stdout ++ ms.map (logLine env) := by
  induction ms generalizing w with
  | nil => simp
  | cons m ms ih =>
    have := ih (logAndPrint env m w)
    simp only [List.foldl_cons, List.map_cons] at this ⊢
    obtain ⟨h1, h2, h3, h4, h5, h6, h7⟩ := this
    refine ⟨h1, h2, h3, h4, h5, ?_, ?_⟩
    · rw [h6, logAndPrint_recordEntries]
    · rw [h7, logAndPrint_stdout, List.append_assoc]
      rfl

/-- The value of the presence check is that of the walk from the root. -/
theorem isDeviceConnected_fst (env : Env) (p : Str) (w : World) :
    (isDeviceConnected env p w).1 = (checkDeviceTree (p.map toupper) env.devRoot).found := by
  unfold isDeviceConnected
  cases env.devRoot <;> rfl

/-- The world that the presence check leaves. -/
theorem isDeviceConnected_snd (env : Env) (p : Str) (w : World) :
    (isDeviceConnected env p w).2.launched = w.launched ∧
    (isDeviceConnected env p w).2.visited =
      w.visited ++ (checkDeviceTree (p.map toupper) env.devRoot).visits ∧
    (isDeviceConnected env p w).2.located = true ∧
    (isDeviceConnected env p w).2.stderr = w.stderr ∧
    (isDeviceConnected env p w).2.dirExists = w.dirExists ∧
    recordEntries (isDeviceConnected env p w).2.files = recordEntries w.files ∧
    (isDeviceConnected env p w).2.stdout =
      w.stdout ++ (checkDeviceTree (p.map toupper) env.devRoot).messages.map (logLine env) := by
  unfold isDeviceConnected
  cases h : env.devRoot with
  | none => simp [checkDeviceTree]
  | node d c s =>
    have := foldl_logAndPrint env (checkDeviceTree (p.map toupper) (DevTree.node d c s)).messages
      { w with located := true,
               visited := w.visited ++ (checkDeviceTree (p.map toupper) (DevTree.node d c s)).visits }
    simpa using this

/-! ## The run after validation -/

/-- The world after lines 166-173. -/
theorem prepare_spec (cfg : Config) (env : Env) :
    (prepare cfg env (World.initial env)).launched = [] ∧
    (prepare cfg env (World.initial env)).visited = [] ∧
    (prepare cfg env (World.initial env)).located = false ∧
    (prepare cfg env (World.initial env)).stderr = [] ∧
    (prepare cfg env (World.initial env)).dirExists = true ∧
    recordEntries (prepare cfg env (World.initial env)).files =
      (recordEntries env.files).filter (fun e => !isOldLog env.now 365 e) ∧
    (prepare cfg env (World.initial env)).stdout =
      [logLine env (List.replicate 60 '-'),
       logLine env ("Starting check for USB device: ".toList ++ cfg.deviceInstancePath)] := by
  refine ⟨rfl, rfl, rfl, rfl, rfl, ?_, rfl⟩
  simp only [prepare, logAndPrint_recordEntries, World.initial, recordEntries_deleteOldLogs]

/-- Lines 176-180: the device was found. -/
theorem decideAndAct_connected (cfg : Config) (env : Env) (w : World) :
    (decideAndAct cfg env true w).1 = 0 ∧
    (decideAndAct cfg env true w).2.launched = w.launched ∧
    (decideAndAct cfg env true w).2.visited = w.visited ∧
    (decideAndAct cfg env true w).2.located = w.located ∧
    (decideAndAct cfg env true w).2.stderr = w.stderr ∧
    (decideAndAct cfg env true w).2.dirExists = w.dirExists ∧
    recordEntries (decideAndAct cfg env true w).2.files =
      writtenRecord (getCurrentTimestamp env) env.now (recordEntries w.files) ∧
    (decideAndAct cfg env true w).2.stdout =
      w.stdout ++ [logLine env "USB device found. Timestamp updated.".toList] := by
  refine ⟨rfl, rfl, rfl, rfl, rfl, rfl, ?_, rfl⟩
  simp only [decideAndAct, if_true, logAndPrint_recordEntries, recordEntries_writeFile_self]

/-- Lines 183-186: the device was not found and there is no record. -/
theorem decideAndAct_noRecord (cfg : Config) (env : Env) (w : World)
    (h : recordEntries w.files = []) :
    (decideAndAct cfg env false w).1 = 0 ∧
    (decideAndAct cfg env false w).2.launched = w.launched ∧
    (decideAndAct cfg env false w).2.visited = w.visited ∧
    (decideAndAct cfg env false w).2.located = w.located ∧
    (decideAndAct cfg env false w).2.stderr = w.stderr ∧
    (decideAndAct cfg env false w).2.dirExists = w.dirExists ∧
    recordEntries (decideAndAct cfg env false w).2.files = [] ∧
    (decideAndAct cfg env false w).2.stdout =
      w.stdout ++ [logLine env "USB device not found. No timestamp file. Exiting.".toList] := by
  have hex : fileExists w.files timestampFileName = false := by
    rw [fileExists_eq, h]; rfl
  simp only [decideAndAct, Bool.false_eq_true, if_false, hex, Bool.not_false, if_true,
    logAndPrint_recordEntries, h, logAndPrint_stdout, logAndPrint_launched, logAndPrint_visited,
    logAndPrint_located, logAndPrint_stderr, logAndPrint_dirExists, and_self]

/-- Lines 188-221: the device was not found and the record `record` is read. -/
theorem decideAndAct_record (cfg : Config) (env : Env) (w : World) (record : FileEntry)
    (rest : List FileEntry) (h : recordEntries w.files = record :: rest) :
    (decideAndAct cfg env false w).1 = 0 ∧
    (decideAndAct cfg env false w).2.launched = w.launched ++
      (if conditionsMet cfg env (parseTimestamp env.timezone (firstLine record))
        then [cfg.exec_cmd] else []) ∧
    (decideAndAct cfg env false w).2.visited = w.visited ∧
    (decideAndAct cfg env false w).2.located = w.located ∧
    (decideAndAct cfg env false w).2.stderr = w.stderr ∧
    (decideAndAct cfg env false w).2.dirExists = w.dirExists ∧
    recordEntries (decideAndAct cfg env false w).2.files = record :: rest := by
  have hex : fileExists w.files timestampFileName = true := by
    rw [fileExists_eq, h]; rfl
  have hread : readFirstLine w.files timestampFileName = firstLine record := by
    rw [readFirstLine_eq, h]; rfl
  unfold conditionsMet
  by_cases hc : mkRat (difftime env.now (parseTimestamp env.timezone (firstLine record))) 60 ≥
      (cfg.wait_min : ℚ) ∧ env.uptime_ms / (60 * 1000) ≥ toULONGLONG cfg.uptime_min
  · rw [if_pos hc]
    simp only [decideAndAct, Bool.false_eq_true, if_false, hex, Bool.not_true, hread, if_pos hc,
      logAndPrint_recordEntries, h, logAndPrint_launched, logAndPrint_visited,
      logAndPrint_located, logAndPrint_stderr, logAndPrint_dirExists, and_self]
  · rw [if_neg hc]
    simp only [decideAndAct, Bool.false_eq_true, if_false, hex, Bool.not_true, hread, if_neg hc,
      logAndPrint_recordEntries, h, logAndPrint_launched, logAndPrint_visited,
      logAndPrint_located, logAndPrint_stderr, logAndPrint_dirExists, List.append_nil, and_self]

/-- The run of lines 166-223 when the walk finds the device. -/
theorem runCheck_found (cfg : Config) (env : Env)
    (h : (checkDeviceTree (cfg.deviceInstancePath.map toupper) env.devRoot).found = true) :
    (runCheck cfg env (World.initial env)).1 = 0 ∧
    (runCheck cfg env (World.initial env)).2.launched = [] ∧
    (runCheck cfg env (World.initial env)).2.visited =
      (checkDeviceTree (cfg.deviceInstancePath.map toupper) env.devRoot).visits ∧
    recordEntries (runCheck cfg env (World.initial env)).2.files =
      writtenRecord (getCurrentTimestamp env) env.now
        ((recordEntries env.files).filter (fun e => !isOldLog env.now 365 e)) ∧
    (runCheck cfg env (World.initial env)).2.stdout =
      [logLine env (List.replicate 60 '-'),
       logLine env ("Starting check for USB device: ".toList ++ cfg.deviceInstancePath)] ++
      (checkDeviceTree (cfg.deviceInstancePath.map toupper) env.devRoot).messages.map
        (logLine env) ++
      [logLine env "USB device found. Timestamp updated.".toList] := by
  obtain ⟨p1, p2, _, _, _, p6, p7⟩ := prepare_spec cfg env
  obtain ⟨c1, c2, _, _, _, c6, c7⟩ :=
    isDeviceConnected_snd env cfg.deviceInstancePath (prepare cfg env (World.initial env))
  have hfst := isDeviceConnected_fst env cfg.deviceInstancePath (prepare cfg env (World.initial env))
  rw [h] at hfst
  obtain ⟨d1, d2, d3, _, _, _, d7, d8⟩ := decideAndAct_connected cfg env
    (isDeviceConnected env cfg.deviceInstancePath (prepare cfg env (World.initial env))).2
  simp only [runCheck, hfst]
  refine ⟨d1, ?_, ?_, ?_, ?_⟩
  · rw [d2, c1, p1]
  · rw [d3, c2, p2, List.nil_append]
  · rw [d7, c6, p6]
  · rw [d8, c7, p7]

/-- The run of lines 166-223 when the walk does not find the device and no record is
left after housekeeping. -/
theorem runCheck_noRecord (cfg : Config) (env : Env)
    (h : (checkDeviceTree (cfg.deviceInstancePath.map toupper) env.devRoot).found = false)
    (hrec : (recordEntries env.files).filter (fun e => !isOldLog env.now 365 e) = []) :
    (runCheck cfg env (World.initial env)).1 = 0 ∧
    (runCheck cfg env (World.initial env)).2.launched = [] ∧
    (runCheck cfg env (World.initial env)).2.visited =
      (checkDeviceTree (cfg.deviceInstancePath.map toupper) env.devRoot).visits ∧
    recordEntries (runCheck cfg env (World.initial env)).2.files = [] ∧
    (runCheck cfg env (World.initial env)).2.stdout =
      [logLine env (List.replicate 60 '-'),
       logLine env ("Starting check for USB device: ".toList ++ cfg.deviceInstancePath),
       logLine env "USB device not found. No timestamp file. Exiting.".toList] := by
  obtain ⟨p1, p2, _, _, _, p6, p7⟩ := prepare_spec cfg env
  obtain ⟨c1, c2, _, _, _, c6, c7⟩ :=
    isDeviceConnected_snd env cfg.deviceInstancePath (prepare cfg env (World.initial env))
  have hfst := isDeviceConnected_fst env cfg.deviceInstancePath (prepare cfg env (World.initial env))
  rw [h] at hfst
  rw [p6, hrec] at c6
  obtain ⟨d1, d2, d3, _, _, _, d7, d8⟩ := decideAndAct_noRecord cfg env
    (isDeviceConnected env cfg.deviceInstancePath (prepare cfg env (World.initial env))).2 c6
  simp only [runCheck, hfst]
  refine ⟨d1, ?_, ?_, d7, ?_⟩
  · rw [d2, c1, p1]
  · rw [d3, c2, p2, List.nil_append]
  · rw [d8, c7, p7, checkDeviceTree_messages_of_not_found _ _ h]
    rfl

/-- The run of lines 166-223 when the walk does not find the device and the record
`record` is left after housekeeping. -/
theorem runCheck_record (cfg : Config) (env : Env) (record : FileEntry) (rest : List FileEntry)
    (h : (checkDeviceTree (cfg.deviceInstancePath.map toupper) env.devRoot).found = false)
    (hrec : (recordEntries env.files).filter (fun e => !isOldLog env.now 365 e) =
      record :: rest) :
    (runCheck cfg env (World.initial env)).1 = 0 ∧
    (runCheck cfg env (World.initial env)).2.launched =
      (if conditionsMet cfg env (parseTimestamp env.timezone (firstLine record))
        then [cfg.exec_cmd] else []) ∧
    (runCheck cfg env (World.initial env)).2.visited =
      (checkDeviceTree (cfg.deviceInstancePath.map toupper) env.devRoot).visits ∧
    recordEntries (runCheck cfg env (World.initial env)).2.files = record :: rest := by
  obtain ⟨p1, p2, _, _, _, p6, p7⟩ := prepare_spec cfg env
  obtain ⟨c1, c2, _, _, _, c6, c7⟩ :=
    isDeviceConnected_snd env cfg.deviceInstancePath (prepare cfg env (World.initial env))
  have hfst := isDeviceConnected_fst env cfg.deviceInstancePath (prepare cfg env (World.initial env))
  rw [h] at hfst
  rw [p6, hrec] at c6
  obtain ⟨d1, d2, d3, _, _, _, d7⟩ := decideAndAct_record cfg env
    (isDeviceConnected env cfg.deviceInstancePath (prepare cfg env (World.initial env))).2
    record rest c6
  simp only [runCheck, hfst]
  refine ⟨d1, ?_, ?_, d7⟩
  · rw [d2, c1, p1, List.nil_append]
  · rw [d3, c2, p2, List.nil_append]

/-! ## The command line -/

theorem main_of_run {flags : List Str} {cfg : Config}
    (h : parseCommandLine flags = CommandLine.run cfg) (env : Env) :
    main flags env = runCheck cfg env (World.initial env) := by
  simp only [main, h]

/-- A threshold that `parseInteger` accepts is a positive `int`. -/
theorem parseInteger_accepts {s : Str} {value : Int} (h : (parseInteger s value).1 = true) :
    0 < (parseInteger s value).2 ∧ (parseInteger s value).2 ≤ INT_MAX := by
  unfold parseInteger at h ⊢
  split at h
  · rename_i v idx hst
    simp only [Bool.and_eq_true, decide_eq_true_eq] at h
    exact ⟨h.2, (stoi_ok_range hst).2⟩
  · exact absurd h (by simp)

/-- The parameters of a validated command line. -/
theorem parseCommandLine_run {flags : List Str} {cfg : Config}
    (h : parseCommandLine flags = CommandLine.run cfg) :
    isHelpRequest flags = false ∧ missingRequired (parseArgs flags []) = false ∧
    (parseInteger ((parseArgs flags []).get "-wait_min".toList) 0).1 = true ∧
    (parseInteger ((parseArgs flags []).get "-uptime_min".toList) 0).1 = true ∧
    cfg = { deviceInstancePath := (parseArgs flags []).get "-uid_usb".toList,
            exec_cmd := (parseArgs flags []).get "-exec".toList,
            log_path := (parseArgs flags []).get "-pathlog".toList,
            wait_min := (parseInteger ((parseArgs flags []).get "-wait_min".toList) 0).2,
            uptime_min := (parseInteger ((parseArgs flags []).get "-uptime_min".toList) 0).2 } := by
  unfold parseCommandLine at h
  by_cases h1 : isHelpRequest flags = true
  · rw [if_pos h1] at h; cases h
  rw [if_neg h1] at h
  dsimp only at h
  by_cases h2 : missingRequired (parseArgs flags []) = true
  · rw [if_pos h2] at h; cases h
  rw [if_neg h2] at h
  cases h3 : (parseInteger ((parseArgs flags []).get "-wait_min".toList) 0).1
  · simp only [h3, Bool.not_false, if_true] at h
    cases h
  · cases h4 : (parseInteger ((parseArgs flags []).get "-uptime_min".toList) 0).1
    · simp only [h3, h4, Bool.not_false, Bool.not_true, Bool.false_eq_true, if_true,
        if_false] at h
      cases h
    · simp only [h3, h4, Bool.not_true, Bool.false_eq_true, if_false,
        CommandLine.run.injEq] at h
      exact ⟨Bool.eq_false_iff.mpr h1, Bool.eq_false_iff.mpr h2, rfl, rfl, h.symm⟩

theorem parseCommandLine_thresholds {flags : List Str} {cfg : Config}
    (h : parseCommandLine flags = CommandLine.run cfg) :
    (0 < cfg.wait_min ∧ cfg.wait_min ≤ INT_MAX) ∧ (0 < cfg.uptime_min ∧ cfg.uptime_min ≤ INT_MAX) := by
  obtain ⟨_, _, h3, h4, rfl⟩ := parseCommandLine_run h
  exact ⟨parseInteger_accepts h3, parseInteger_accepts h4⟩

/-- The condition of line 215 in plain arithmetic, for a positive `int` as `uptime_min`:
the elapsed minutes as a fraction and the whole minutes of uptime. -/
theorem conditionsMet_iff (cfg : Config) (env : Env) (last : Int)
    (hu : 0 < cfg.uptime_min ∧ cfg.uptime_min ≤ INT_MAX) :
    conditionsMet cfg env last ↔
      (((env.now - last : Int) : ℚ) / 60 ≥ (cfg.wait_min : ℚ) ∧
        ((env.uptime_ms / 60000 : Nat) : Int) ≥ cfg.uptime_min) := by
  unfold conditionsMet difftime
  have hull : ((toULONGLONG cfg.uptime_min : Nat) : Int) = cfg.uptime_min := by
    unfold toULONGLONG
    have h1 : cfg.uptime_min % 2 ^ 64 = cfg.uptime_min := by
      apply Int.emod_eq_of_lt (by omega)
      have := hu.2
      simp only [INT_MAX] at this
      omega
    rw [h1]
    exact Int.toNat_of_nonneg (by omega)
  have hq : mkRat (env.now - last) 60 = ((env.now - last : Int) : ℚ) / 60 := by
    rw [Rat.mkRat_eq_div]; norm_num
  rw [hq]
  constructor
  · rintro ⟨a, b⟩
    refine ⟨a, ?_⟩
    rw [← hull]
    exact_mod_cast b
  · rintro ⟨a, b⟩
    refine ⟨a, ?_⟩
    rw [← hull] at b
    exact_mod_cast b

/-! ## The claims on `parseInteger` and on the tree walk -/

/-- C9: `parseInteger(s, value)` returns true if and only if the whole of `s` is
consumed as one base-10 integer (optional leading white space and sign, then digits,
nothing after them) whose value lies in `1 .. 2^31 - 1`; for every such string the
flag is true and `value` holds that integer; every other string gives false, and no
input raises. -/
theorem parseInteger_true_iff_whole_positive_int (s : Str) (value : Int) :
    ((parseInteger s value).1 = true ↔ ∃ n, IsWholeInteger s n ∧ 1 ≤ n ∧ n ≤ 2 ^ 31 - 1) ∧
    (∀ n, IsWholeInteger s n → 1 ≤ n → n ≤ 2 ^ 31 - 1 → parseInteger s value = (true, n)) ∧
    ((parseInteger s value).1 = true → IsWholeInteger s (parseInteger s value).2) := by
  refine ⟨(parseInteger_spec s value).1, (parseInteger_spec s value).2, ?_⟩
  intro h
  obtain ⟨n, hn, h1, h2⟩ := (parseInteger_spec s value).1.mp h
  rw [(parseInteger_spec s value).2 n hn h1 h2]
  exact hn

/-- C9 at concrete strings: `42` is accepted with the value 42; `0`, `-3`, the empty
string, `abc`, `5m`, `5 ` and `2147483648` are rejected. -/
theorem parseInteger_true_iff_whole_positive_int_witness :
    parseInteger "42".toList 0 = (true, 42) ∧
    (parseInteger "0".toList 7).1 = false ∧ (parseInteger "-3".toList 7).1 = false ∧
    (parseInteger "".toList 7).1 = false ∧ (parseInteger "abc".toList 7).1 = false ∧
    (parseInteger "5m".toList 7).1 = false ∧ (parseInteger "5 ".toList 7).1 = false ∧
    (parseInteger "2147483648".toList 7).1 = false :=
  ⟨(parseInteger_true_iff_whole_positive_int "42".toList 0).2.1 42
      ⟨[], [], "42".toList, rfl, by simp, by decide, by decide, Or.inl ⟨Or.inl rfl, by decide⟩⟩
      (by decide) (by decide),
    by decide, by decide, by decide, by decide, by decide, by decide, by decide⟩

theorem uptoFirst_decomp {α : Type} (p : α → Bool) (l : List α) (h : l.any p = true) :
    ∃ pre v post, l = pre ++ v :: post ∧ (∀ x ∈ pre, p x = false) ∧ p v = true ∧
      uptoFirst p l = pre ++ [v] := by
  induction l with
  | nil => simp at h
  | cons x xs ih =>
    by_cases hx : p x = true
    · exact ⟨[], x, xs, rfl, by simp, hx, by simp [uptoFirst, hx]⟩
    · have hx' : p x = false := by simpa using hx
      have hany : xs.any p = true := by simpa [List.any_cons, hx'] using h
      obtain ⟨pre, v, post, h1, h2, h3, h4⟩ := ih hany
      refine ⟨x :: pre, v, post, by rw [h1]; rfl, ?_, h3, by simp [uptoFirst, hx', h4]⟩
      intro y hy
      rcases List.mem_cons.mp hy with rfl | hy
      · exact hx'
      · exact h2 y hy

/-- C8: the walk of `isDeviceConnected` reads identifiers along the pre-order listing of
the tree (a node, its whole child subtree, then its next sibling). When some node
matches, the listing splits into the nodes before the first match, that node, and the
rest, and the walk reads exactly the first two parts. When none matches, it reads the
whole listing and returns false. The listing holds every node of the tree and no
handle twice, so no node is read twice. -/
theorem isDeviceConnected_visits_preorder (env : Env) (p : Str) (w : World) :
    ((isDeviceConnected env p w).1 = true →
      ∃ pre v post, preorder env.devRoot = pre ++ v :: post ∧
        (∀ x ∈ pre, idMatches (p.map toupper) x.2 = false) ∧
        idMatches (p.map toupper) v.2 = true ∧
        (isDeviceConnected env p w).2.visited = w.visited ++ (pre ++ [v])) ∧
    ((isDeviceConnected env p w).1 = false →
      (∀ x ∈ preorder env.devRoot, idMatches (p.map toupper) x.2 = false) ∧
      (isDeviceConnected env p w).2.visited = w.visited ++ preorder env.devRoot) ∧
    ((isDeviceConnected env p w).1 =
      (preorder env.devRoot).any (fun v => idMatches (p.map toupper) v.2)) ∧
    (∀ h devId, (h, devId) ∈ preorder env.devRoot ↔
      ∃ c s, nodeAt env.devRoot h = DevTree.node devId c s) ∧
    ((preorder env.devRoot).map Prod.fst).Nodup ∧
    ((isDeviceConnected env p (World.initial env)).2.visited.map Prod.fst).Nodup := by
  obtain ⟨hf, hv⟩ := checkDeviceTree_spec (p.map toupper) env.devRoot
  have hfst := isDeviceConnected_fst env p w
  have hvis := (isDeviceConnected_snd env p w).2.1
  have hvis0 := (isDeviceConnected_snd env p (World.initial env)).2.1
  refine ⟨?_, ?_, hfst.trans hf, fun h devId => mem_preorder_iff _ h devId,
    preorder_handles_nodup _, ?_⟩
  rotate_right
  · rw [hvis0, hv]
    exact (preorder_handles_nodup env.devRoot).sublist
      ((uptoFirst_initial _ _).sublist.map Prod.fst)
  · intro h
    rw [hfst, hf] at h
    obtain ⟨pre, v, post, h1, h2, h3, h4⟩ := uptoFirst_decomp _ _ h
    exact ⟨pre, v, post, h1, h2, h3, by rw [hvis, hv, h4]⟩
  · intro h
    rw [hfst, hf] at h
    refine ⟨?_, by rw [hvis, hv, uptoFirst_of_not_any _ _ h]⟩
    intro x hx
    have := List.any_eq_false.mp h x hx
    simpa using this

/-- C8 on `sampleTree`: with the pattern `usb\c` the nodes read are the root, `A`, `B`
and `C`, in this order, and the node under `C` is not read; with a pattern that no
node has, all five nodes are read, the unreadable one included. -/
theorem isDeviceConnected_visits_preorder_witness :
    (isDeviceConnected (sampleEnv sampleTree []) "usb\\c".toList
        (World.initial (sampleEnv sampleTree []))).2.visited =
      [([], some "HTREE\\ROOT\\0".toList), ([Step.child], some "USB\\A".toList),
       ([Step.child, Step.child], some "USB\\B".toList),
       ([Step.child, Step.sibling], some "USB\\C".toList)] ∧
    (isDeviceConnected (sampleEnv sampleTree []) "VID_1234".toList
        (World.initial (sampleEnv sampleTree []))).2.visited =
      [([], some "HTREE\\ROOT\\0".toList), ([Step.child], some "USB\\A".toList),
       ([Step.child, Step.child], some "USB\\B".toList),
       ([Step.child, Step.sibling], some "USB\\C".toList),
       ([Step.child, Step.sibling, Step.child], Option.none)] := by
  have h := isDeviceConnected_visits_preorder (sampleEnv sampleTree []) "VID_1234".toList
    (World.initial (sampleEnv sampleTree []))
  exact ⟨by decide, (h.2.1 (by decide)).2⟩

/-- What `isDeviceConnected` decides: some node has a readable identifier in which the
upper-cased pattern occurs as it stands. The identifier itself is not case-folded. -/
theorem isDeviceConnected_iff (env : Env) (p : Str) (w : World) :
    (isDeviceConnected env p w).1 = true ↔
      ∃ v ∈ preorder env.devRoot, ∃ devId, v.2 = some devId ∧ foldCase p <:+: devId := by
  rw [isDeviceConnected_fst, (checkDeviceTree_spec _ _).1, List.any_eq_true]
  constructor
  · rintro ⟨v, hv, hm⟩
    obtain ⟨s, hs, hi⟩ := (idMatches_iff _ _).mp hm
    exact ⟨v, hv, s, hs, hi⟩
  · rintro ⟨v, hv, s, hs, hi⟩
    exact ⟨v, hv, (idMatches_iff _ _).mpr ⟨s, hs, hi⟩⟩

/-- On a tree whose readable identifiers have no lower-case letter, `isDeviceConnected`
is the case-insensitive containment test. -/
theorem isDeviceConnected_iff_of_upper (env : Env) (p : Str) (w : World)
    (hup : ∀ v ∈ preorder env.devRoot, ∀ devId, v.2 = some devId → foldCase devId = devId) :
    (isDeviceConnected env p w).1 = true ↔
      ∃ v ∈ preorder env.devRoot, ∃ devId, v.2 = some devId ∧ ContainsIgnoreCase devId p := by
  rw [isDeviceConnected_iff]
  constructor
  · rintro ⟨v, hv, s, hs, hi⟩
    exact ⟨v, hv, s, hs, by unfold ContainsIgnoreCase; rw [hup v hv s hs]; exact hi⟩
  · rintro ⟨v, hv, s, hs, hi⟩
    refine ⟨v, hv, s, hs, ?_⟩
    unfold ContainsIgnoreCase at hi
    rw [hup v hv s hs] at hi
    exact hi

theorem toupper_toupper (c : Char) : toupper (toupper c) = toupper c := by
  unfold toupper Char.toUpper
  dsimp only
  by_cases h : c.toNat ≥ 97 ∧ c.toNat ≤ 122
  · rw [if_pos h]
    have hc : c = Char.ofNat c.toNat := (Char.ofNat_toNat c).symm
    obtain ⟨h1, h2⟩ := h
    generalize c.toNat = n at hc h1 h2
    subst hc
    interval_cases n <;> rfl
  · rw [if_neg h, if_neg h]

/-- A true answer of `isDeviceConnected` is right under case-insensitive comparison:
some readable identifier contains the pattern when the case of both is folded. -/
theorem isDeviceConnected_sound (env : Env) (p : Str) (w : World)
    (h : (isDeviceConnected env p w).1 = true) :
    ∃ v ∈ preorder env.devRoot, ∃ devId, v.2 = some devId ∧ ContainsIgnoreCase devId p := by
  obtain ⟨v, hv, s, hs, hi⟩ := (isDeviceConnected_iff env p w).mp h
  refine ⟨v, hv, s, hs, ?_⟩
  have hm := List.IsInfix.map toupper hi
  have hfold : List.map toupper (foldCase p) = foldCase p := by
    unfold foldCase
    rw [List.map_map]
    apply List.map_congr_left
    intro c _
    exact toupper_toupper c
  rw [hfold] at hm
  exact hm

/-- C1 at the failing input: the tree `lowerCaseTree` has a node whose identifier
`USB\VID_1234&PID_5678\5&2a8f3b5&0&1` contains the non-empty pattern `5&2a8f3b5&0&1`,
literally and hence under case-insensitive comparison, and `isDeviceConnected` returns
false: the pattern is upper-cased, the identifier is not. -/
theorem isDeviceConnected_misses_lower_case_identifier :
    "5&2a8f3b5&0&1".toList ≠ [] ∧
    ([Step.child], some "USB\\VID_1234&PID_5678\\5&2a8f3b5&0&1".toList) ∈
      preorder lowerCaseTree ∧
    "5&2a8f3b5&0&1".toList <:+: "USB\\VID_1234&PID_5678\\5&2a8f3b5&0&1".toList ∧
    ContainsIgnoreCase "USB\\VID_1234&PID_5678\\5&2a8f3b5&0&1".toList "5&2a8f3b5&0&1".toList ∧
    (isDeviceConnected (sampleEnv lowerCaseTree []) "5&2a8f3b5&0&1".toList
      (World.initial (sampleEnv lowerCaseTree []))).1 = false := by
  refine ⟨by decide, by decide, ?_, ?_, by decide⟩
  · exact ⟨"USB\\VID_1234&PID_5678\\".toList, [], by decide⟩
  · exact ⟨"USB\\VID_1234&PID_5678\\".toList, [], by decide⟩

/-! ## The claims on the run -/

theorem mem_recordEntries (files : List FileEntry) (e : FileEntry) :
    e ∈ recordEntries files ↔ e ∈ files ∧ e.name = timestampFileName := by
  simp [recordEntries, List.mem_filter]

theorem recordEntries_eq_nil_of_not_exists {files : List FileEntry}
    (h : fileExists files timestampFileName = false) : recordEntries files = [] := by
  rw [fileExists_eq] at h
  exact List.isEmpty_iff.mp (by simpa using h)

theorem fileExists_eq_false_of_recordEntries {files : List FileEntry}
    (h : recordEntries files = []) : fileExists files timestampFileName = false := by
  rw [fileExists_eq, h]; rfl

/-- The record that a run reads when the first record of the directory is not an
old log. -/
theorem kept_of_find? {files : List FileEntry} {record : FileEntry} {now : Int}
    (hfind : files.find? (fun e => decide (e.name = timestampFileName)) = some record)
    (hkeep : isOldLog now 365 record = false) :
    ∃ rest, (recordEntries files).filter (fun e => !isOldLog now 365 e) = record :: rest := by
  rw [find?_eq_head?_recordEntries] at hfind
  cases hrec : recordEntries files with
  | nil => rw [hrec] at hfind; cases hfind
  | cons r rs =>
    rw [hrec] at hfind
    simp only [List.head?_cons, Option.some.injEq] at hfind
    subst hfind
    exact ⟨rs.filter (fun e => !isOldLog now 365 e), by simp [List.filter_cons, hkeep]⟩

/-- C4: for every validated run in which the presence check returns false and the
directory has no last-success record, the run ends as NoHistory: exit status 0, nothing
launched, no record created, and the last thing logged is that there is no timestamp
file; whatever the thresholds, the time and the uptime are. -/
theorem main_absent_without_record (flags : List Str) (env : Env) (cfg : Config)
    (hcfg : parseCommandLine flags = CommandLine.run cfg)
    (habsent : (isDeviceConnected env cfg.deviceInstancePath (World.initial env)).1 = false)
    (hnone : fileExists env.files timestampFileName = false) :
    (main flags env).1 = 0 ∧ (main flags env).2.launched = [] ∧
    fileExists (main flags env).2.files timestampFileName = false ∧
    (main flags env).2.stdout =
      [logLine env (List.replicate 60 '-'),
       logLine env ("Starting check for USB device: ".toList ++ cfg.deviceInstancePath),
       logLine env "USB device not found. No timestamp file. Exiting.".toList] := by
  rw [isDeviceConnected_fst] at habsent
  have hrec : (recordEntries env.files).filter (fun e => !isOldLog env.now 365 e) = [] := by
    rw [recordEntries_eq_nil_of_not_exists hnone]; rfl
  obtain ⟨h1, h2, _, h4, h5⟩ := runCheck_noRecord cfg env habsent hrec
  rw [main_of_run hcfg]
  exact ⟨h1, h2, fileExists_eq_false_of_recordEntries h4, h5⟩

/-- C4 on Scenario A: pattern `VID_1234`, a tree without the device, an empty directory,
thresholds 1 and 1. -/
theorem main_absent_without_record_witness :
    (main (sampleFlags "1".toList "1".toList) (sampleEnv emptyTree [])).1 = 0 ∧
    (main (sampleFlags "1".toList "1".toList) (sampleEnv emptyTree [])).2.launched = [] ∧
    fileExists (main (sampleFlags "1".toList "1".toList) (sampleEnv emptyTree [])).2.files
      timestampFileName = false :=
  have h := main_absent_without_record (sampleFlags "1".toList "1".toList)
    (sampleEnv emptyTree []) (sampleConfig 1 1) (by decide) (by decide) (by decide)
  ⟨h.1, h.2.1, h.2.2.1⟩

/-- C5: for every validated run in which the presence check returns true (the clock
showing a year of four digits, and no directory in the place of the record), the run
ends with exit status 0 and launches nothing; afterwards the record exists, every
entry of its name holds exactly the current time in the format `YYYY-MM-DD HH:MM:SS`
and nothing else, whatever was there before; that text reads back as the current
time; and the output has the lines of the start, of the found device and of the
update only: no threshold is evaluated. -/
theorem main_present_writes_record (flags : List Str) (env : Env) (cfg : Config)
    (hcfg : parseCommandLine flags = CommandLine.run cfg)
    (hpresent : (isDeviceConnected env cfg.deviceInstancePath (World.initial env)).1 = true)
    (htm : env.local_tm.valid)
    (hreg : ∀ e ∈ env.files, e.name = timestampFileName → e.isRegular = true) :
    (main flags env).1 = 0 ∧ (main flags env).2.launched = [] ∧
    fileExists (main flags env).2.files timestampFileName = true ∧
    (∀ e ∈ (main flags env).2.files, e.name = timestampFileName →
      e.content = formatTimestamp env.local_tm ∧ e.lastWrite = env.now ∧ e.isRegular = true) ∧
    readFirstLine (main flags env).2.files timestampFileName = formatTimestamp env.local_tm ∧
    get_time (formatTimestamp env.local_tm) = env.local_tm ∧
    (main flags env).2.stdout =
      [logLine env (List.replicate 60 '-'),
       logLine env ("Starting check for USB device: ".toList ++ cfg.deviceInstancePath)] ++
      (checkDeviceTree (cfg.deviceInstancePath.map toupper) env.devRoot).messages.map
        (logLine env) ++
      [logLine env "USB device found. Timestamp updated.".toList] := by
  rw [isDeviceConnected_fst] at hpresent
  obtain ⟨h1, h2, _, h4, h5⟩ := runCheck_found cfg env hpresent
  rw [main_of_run hcfg]
  rw [getCurrentTimestamp_of_valid env htm] at h4
  have hall : ∀ e ∈ recordEntries (runCheck cfg env (World.initial env)).2.files,
      e.content = formatTimestamp env.local_tm ∧ e.lastWrite = env.now ∧ e.isRegular = true := by
    intro e he
    rw [h4] at he
    unfold writtenRecord at he
    split at he
    · simp only [List.mem_singleton] at he
      subst he
      exact ⟨rfl, rfl, rfl⟩
    · simp only [List.mem_map, List.mem_filter] at he
      obtain ⟨a, ⟨ha, _⟩, rfl⟩ := he
      have hr := hreg a ((mem_recordEntries _ _).mp ha).1 ((mem_recordEntries _ _).mp ha).2
      simp [hr]
  have hne : recordEntries (runCheck cfg env (World.initial env)).2.files ≠ [] := by
    rw [h4]
    unfold writtenRecord
    split
    · simp
    · rename_i hemp
      intro hnil
      apply hemp
      simpa using hnil
  have hget := get_time_formatTimestamp env.local_tm htm []
  rw [List.append_nil] at hget
  refine ⟨h1, h2, ?_, ?_, ?_, hget, h5⟩
  · rw [fileExists_eq]
    cases hr : recordEntries (runCheck cfg env (World.initial env)).2.files with
    | nil => exact absurd hr hne
    | cons a l => rfl
  · intro e he hn
    exact hall e ((mem_recordEntries _ _).mpr ⟨he, hn⟩)
  · rw [readFirstLine_eq]
    cases hr : recordEntries (runCheck cfg env (World.initial env)).2.files with
    | nil => exact absurd hr hne
    | cons a l =>
      have ha := hall a (by rw [hr]; exact List.mem_cons_self _ _)
      simp only [List.head?_cons, firstLine, ha.2.2, if_true, ha.1]
      exact (formatTimestamp_shape _ htm).2

/-- C5 on Scenario B: the device is the only child of the root; the record, which held
other text, holds the current time afterwards. -/
theorem main_present_writes_record_witness :
    (main (sampleFlags "60".toList "30".toList)
        (sampleEnv presentTree [recordFile "old text\nmore".toList 7200])).1 = 0 ∧
    readFirstLine (main (sampleFlags "60".toList "30".toList)
        (sampleEnv presentTree [recordFile "old text\nmore".toList 7200])).2.files
      timestampFileName = "2024-01-15 12:30:45".toList :=
  have h := main_present_writes_record (sampleFlags "60".toList "30".toList)
    (sampleEnv presentTree [recordFile "old text\nmore".toList 7200]) (sampleConfig 60 30)
    (by decide) (by decide) (by decide) (by decide)
  ⟨h.1, h.2.2.2.2.1⟩

theorem isOldLog_eq_false_of_age {now : Int} {e : FileEntry} (h : fileAgeDays now e ≤ 365) :
    isOldLog now 365 e = false := by
  have hd : decide (fileAgeDays now e > 365) = false := decide_eq_false (by omega)
  simp only [isOldLog, hd, Bool.and_false]

/-- The launch of a validated run that does not find the device and reads `record`. -/
theorem main_launched_of_record (flags : List Str) (env : Env) (cfg : Config)
    (record : FileEntry)
    (hcfg : parseCommandLine flags = CommandLine.run cfg)
    (habsent : (isDeviceConnected env cfg.deviceInstancePath (World.initial env)).1 = false)
    (hfind : env.files.find? (fun e => decide (e.name = timestampFileName)) = some record)
    (hkeep : isOldLog env.now 365 record = false) :
    (main flags env).1 = 0 ∧
    (ThresholdsReached cfg env (parseTimestamp env.timezone (firstLine record)) →
      (main flags env).2.launched = [cfg.exec_cmd]) ∧
    (¬ ThresholdsReached cfg env (parseTimestamp env.timezone (firstLine record)) →
      (main flags env).2.launched = []) ∧
    (∀ e ∈ (main flags env).2.files, e.name = timestampFileName → e ∈ env.files) := by
  rw [isDeviceConnected_fst] at habsent
  obtain ⟨rest, hrec⟩ := kept_of_find? hfind hkeep
  obtain ⟨h1, h2, _, h4⟩ := runCheck_record cfg env record rest habsent hrec
  have hiff := conditionsMet_iff cfg env (parseTimestamp env.timezone (firstLine record))
    (parseCommandLine_thresholds hcfg).2
  rw [main_of_run hcfg]
  refine ⟨h1, ?_, ?_, ?_⟩
  · intro hc
    rw [h2, if_pos (hiff.mpr hc)]
  · intro hc
    rw [h2, if_neg (fun h => hc (hiff.mp h))]
  · intro e he hn
    have hmem : e ∈ recordEntries (runCheck cfg env (World.initial env)).2.files :=
      (mem_recordEntries _ _).mpr ⟨he, hn⟩
    rw [h4, ← hrec] at hmem
    exact ((mem_recordEntries _ _).mp (List.mem_filter.mp hmem).1).1

/-- C2, as amended: for every validated run (both thresholds are then positive) in which
the presence check returns false and the first line of the last-success record is the
time stamp that `getCurrentTimestamp` wrote at the moment `sighting.now` of the last
sighting, daylight saving time not being in effect then, the record being at most 365
whole days old so that housekeeping keeps it: the exit status is 0, and the recovery
command is launched, exactly once, if and only if the minutes elapsed since the
sighting, as a fraction, are at least `wait_min` and the whole minutes of uptime are at
least `uptime_min`; otherwise nothing is launched. -/
theorem main_launches_iff_thresholds (flags : List Str) (env : Env) (cfg : Config)
    (record : FileEntry) (sighting : Env)
    (hcfg : parseCommandLine flags = CommandLine.run cfg)
    (habsent : (isDeviceConnected env cfg.deviceInstancePath (World.initial env)).1 = false)
    (hfind : env.files.find? (fun e => decide (e.name = timestampFileName)) = some record)
    (hfresh : fileAgeDays env.now record ≤ 365)
    (hline : firstLine record = getCurrentTimestamp sighting)
    (htm : sighting.local_tm.valid)
    (hstd : IsStandardLocalTime env.timezone sighting.now sighting.local_tm) :
    (0 < cfg.wait_min ∧ 0 < cfg.uptime_min) ∧
    (main flags env).1 = 0 ∧
    ((((env.now - sighting.now : Int) : ℚ) / 60 ≥ (cfg.wait_min : ℚ) ∧
        ((env.uptime_ms / 60000 : Nat) : Int) ≥ cfg.uptime_min) →
      (main flags env).2.launched = [cfg.exec_cmd]) ∧
    (¬ (((env.now - sighting.now : Int) : ℚ) / 60 ≥ (cfg.wait_min : ℚ) ∧
        ((env.uptime_ms / 60000 : Nat) : Int) ≥ cfg.uptime_min) →
      (main flags env).2.launched = []) := by
  obtain ⟨h1, h2, h3, _⟩ := main_launched_of_record flags env cfg record hcfg habsent hfind
    (isOldLog_eq_false_of_age hfresh)
  have hparse : parseTimestamp env.timezone (firstLine record) = sighting.now := by
    have hget := get_time_formatTimestamp sighting.local_tm htm []
    rw [List.append_nil] at hget
    rw [parseTimestamp, hline, getCurrentTimestamp_of_valid sighting htm, hget]
    exact hstd
  rw [hparse] at h2 h3
  have hpos := parseCommandLine_thresholds hcfg
  exact ⟨⟨hpos.1.1, hpos.2.1⟩, h1, h2, h3⟩

/-- C2 on Scenario C: the device was last seen at 10:30:45, 120 minutes before the run,
`wait_min` is 60, the uptime is 200 minutes and `uptime_min` is 30: the command is
launched once. -/
theorem main_launches_iff_thresholds_witness :
    (main (sampleFlags "60".toList "30".toList)
        (sampleEnv emptyTree [recordFile "2024-01-15 10:30:45".toList 7200])).2.launched =
      ["shutdown /r /t 0".toList] :=
  (main_launches_iff_thresholds (sampleFlags "60".toList "30".toList)
    (sampleEnv emptyTree [recordFile "2024-01-15 10:30:45".toList 7200]) (sampleConfig 60 30)
    (recordFile "2024-01-15 10:30:45".toList 7200)
    (clockEnv 1705314645
      { tm_sec := 45, tm_min := 30, tm_hour := 10, tm_mday := 15, tm_mon := 0, tm_year := 124 }
      presentTree [])
    (by decide) (by decide) (by decide) (by decide) (by decide) (by decide)
    (by unfold IsStandardLocalTime; decide)).2.2.1
    ⟨by simp only [sampleEnv, sampleConfig, clockEnv]; norm_num, by decide⟩

/-- A record written under daylight saving time is read one hour late. The device is
seen at 1719849600 (2024-07-01 16:00:00 UTC) on a clock that shows 17:00:00, daylight
saving time being in effect; the run that finds it writes `2024-07-01 17:00:00`. A run
60 minutes later, with `wait_min` 60 and `uptime_min` 30 reached, reads the record as
the instant 1719853200, its own time, counts no elapsed minute and launches nothing. -/
theorem summer_record_read_one_hour_late :
    readFirstLine (main (sampleFlags "60".toList "30".toList)
        (clockEnv 1719849600
          { tm_sec := 0, tm_min := 0, tm_hour := 17, tm_mday := 1, tm_mon := 6, tm_year := 124 }
          presentTree [])).2.files timestampFileName =
      "2024-07-01 17:00:00".toList ∧
    parseTimestamp 0 "2024-07-01 17:00:00".toList = 1719849600 + 3600 ∧
    (60 : Int) * 60 ≤ (1719849600 + 3600) - 1719849600 ∧
    (main (sampleFlags "60".toList "30".toList)
      (clockEnv (1719849600 + 3600)
        { tm_sec := 0, tm_min := 0, tm_hour := 18, tm_mday := 1, tm_mon := 6, tm_year := 124 }
        emptyTree [recordWrittenAt "2024-07-01 17:00:00".toList 1719849600])).1 = 0 ∧
    (main (sampleFlags "60".toList "30".toList)
      (clockEnv (1719849600 + 3600)
        { tm_sec := 0, tm_min := 0, tm_hour := 18, tm_mday := 1, tm_mon := 6, tm_year := 124 }
        emptyTree [recordWrittenAt "2024-07-01 17:00:00".toList 1719849600])).2.launched = [] := by
  decide

/-- Scenario D: as Scenario C with `uptime_min` 500; nothing is launched. -/
theorem scenario_D_not_launched :
    (main (sampleFlags "60".toList "500".toList)
        (sampleEnv emptyTree [recordFile "2024-01-15 10:30:45".toList 7200])).1 = 0 ∧
    (main (sampleFlags "60".toList "500".toList)
        (sampleEnv emptyTree [recordFile "2024-01-15 10:30:45".toList 7200])).2.launched = [] := by
  decide

/-- C2 as stated fails: the device is absent, a last-success record exists when the run
starts and holds the well-formed time stamp of 400 days ago, `wait_min` is 60 and
`uptime_min` is 30 with 200 minutes of uptime, so both thresholds are reached; the
record, last written 400 days ago, is deleted by the housekeeping and nothing is
launched. -/
theorem stale_record_never_launches :
    parseCommandLine (sampleFlags "60".toList "30".toList) = CommandLine.run (sampleConfig 60 30) ∧
    (isDeviceConnected (sampleEnv emptyTree [recordFile "2022-12-11 12:30:45".toList 34560000])
      (sampleConfig 60 30).deviceInstancePath
      (World.initial (sampleEnv emptyTree
        [recordFile "2022-12-11 12:30:45".toList 34560000]))).1 = false ∧
    fileExists (sampleEnv emptyTree [recordFile "2022-12-11 12:30:45".toList 34560000]).files
      timestampFileName = true ∧
    readFirstLine (sampleEnv emptyTree [recordFile "2022-12-11 12:30:45".toList 34560000]).files
      timestampFileName = formatTimestamp
        { tm_sec := 45, tm_min := 30, tm_hour := 12, tm_mday := 11, tm_mon := 11,
          tm_year := 122 } ∧
    parseTimestamp 0 "2022-12-11 12:30:45".toList = 1705321845 - 34560000 ∧
    (60 : Int) * 60 ≤ 34560000 ∧ (30 : Nat) ≤ 200 * 60000 / 60000 ∧
    (main (sampleFlags "60".toList "30".toList)
      (sampleEnv emptyTree [recordFile "2022-12-11 12:30:45".toList 34560000])).2.launched = [] := by
  decide

theorem missingRequired_eq_false_iff (args : Args) :
    missingRequired args = false ↔
      (args.count "-uid_usb".toList = true ∧ (args.get "-uid_usb".toList).isEmpty = false) ∧
      (args.count "-exec".toList = true ∧ (args.get "-exec".toList).isEmpty = false) ∧
      (args.count "-pathlog".toList = true ∧ (args.get "-pathlog".toList).isEmpty = false) ∧
      args.count "-wait_min".toList = true ∧ args.count "-uptime_min".toList = true := by
  simp only [missingRequired, Bool.or_eq_false_iff, Bool.not_eq_false', and_assoc]

theorem not_missingOrEmpty_iff (args : Args) (key : Str) :
    ¬ MissingOrEmpty args key ↔ args.count key = true ∧ (args.get key).isEmpty = false := by
  unfold MissingOrEmpty Args.count Args.get
  cases h : List.lookup key args with
  | none => simp
  | some s => cases s <;> simp

theorem not_notPositiveInt_iff (args : Args) (key : Str) (value : Int) :
    ¬ NotPositiveInt args key ↔
      args.count key = true ∧ (parseInteger (args.get key) value).1 = true := by
  unfold NotPositiveInt Args.count Args.get
  rw [not_not]
  cases h : List.lookup key args with
  | none => simp
  | some s =>
    simp only [Option.some.injEq, Option.isSome_some, Option.getD_some, true_and]
    rw [(parseInteger_spec s value).1]
    constructor
    · rintro ⟨s', n, rfl, hn⟩
      exact ⟨n, hn⟩
    · rintro ⟨n, hn⟩
      exact ⟨s, n, rfl, hn⟩

/-- A key that does not occur on the command line is not bound. -/
theorem lookup_parseArgs_of_not_mem (key : Str) :
    ∀ (flags : List Str) (args : Args), key ∉ flags →
      (parseArgs flags args).lookup key = args.lookup key := by
  intro flags args
  induction flags, args using parseArgs.induct with
  | case1 args => intro _; rfl
  | case2 a args => intro _; rfl
  | case3 flag value rest args hp ih =>
    intro hk
    rw [parseArgs, if_pos hp, ih]
    · have hne : key ≠ flag := fun h => hk (h ▸ List.mem_cons_self _ _)
      have hb : (key == flag) = false := by simpa using hne
      rw [List.lookup_cons, hb]
    · intro hmem
      exact hk (List.mem_cons_of_mem _ (List.mem_cons_of_mem _ hmem))
  | case4 flag value rest args hp ih =>
    intro hk
    rw [parseArgs, if_neg hp, ih]
    intro hmem
    exact hk (List.mem_cons_of_mem _ hmem)

/-- A command line that is not a request for help is validated exactly when it is not
bad. -/
theorem parseCommandLine_run_iff (flags : List Str) (hhelp : isHelpRequest flags = false) :
    (∃ cfg, parseCommandLine flags = CommandLine.run cfg) ↔
      ¬ BadCommandLine (parseArgs flags []) := by
  have hbad : ¬ BadCommandLine (parseArgs flags []) ↔
      (missingRequired (parseArgs flags []) = false ∧
        (parseInteger ((parseArgs flags []).get "-wait_min".toList) 0).1 = true ∧
        (parseInteger ((parseArgs flags []).get "-uptime_min".toList) 0).1 = true) := by
    unfold BadCommandLine
    rw [not_or, not_or, not_or, not_or, not_missingOrEmpty_iff, not_missingOrEmpty_iff,
      not_missingOrEmpty_iff, not_notPositiveInt_iff _ _ 0, not_notPositiveInt_iff _ _ 0,
      missingRequired_eq_false_iff]
    tauto
  rw [hbad]
  constructor
  · rintro ⟨cfg, h⟩
    obtain ⟨_, h2, h3, h4, _⟩ := parseCommandLine_run h
    exact ⟨h2, h3, h4⟩
  · rintro ⟨h2, h3, h4⟩
    refine ⟨{ deviceInstancePath := (parseArgs flags []).get "-uid_usb".toList,
              exec_cmd := (parseArgs flags []).get "-exec".toList,
              log_path := (parseArgs flags []).get "-pathlog".toList,
              wait_min := (parseInteger ((parseArgs flags []).get "-wait_min".toList) 0).2,
              uptime_min := (parseInteger ((parseArgs flags []).get "-uptime_min".toList) 0).2 },
      ?_⟩
    unfold parseCommandLine
    rw [if_neg (by rw [hhelp]; exact Bool.false_ne_true)]
    dsimp only
    rw [if_neg (by rw [h2]; exact Bool.false_ne_true)]
    simp only [h3, h4, Bool.not_true, Bool.false_eq_true, if_false]

/-- C7: for every command line that is not a request for help: if one of `-uid_usb`,
`-exec`, `-pathlog` is missing or empty, or one of `-wait_min`, `-uptime_min` is missing
or does not parse as a positive integer, then the run exits with status 1 and leaves
the world as it found it: no device check (the root is not located, no identifier is
read), the directory and its entries untouched, nothing launched; otherwise the
command line is validated and the check runs on its parameters; whenever the
validation passes, both thresholds are positive integers within `int`; and a key that
does not occur among the arguments counts as missing. -/
theorem main_rejects_bad_command_line (flags : List Str) (env : Env)
    (hhelp : isHelpRequest flags = false) :
    (BadCommandLine (parseArgs flags []) →
      (main flags env).1 = 1 ∧
      (main flags env).2.located = false ∧ (main flags env).2.visited = [] ∧
      (main flags env).2.dirExists = env.dirExists ∧ (main flags env).2.files = env.files ∧
      (main flags env).2.launched = [] ∧ (main flags env).2.stdout = []) ∧
    (¬ BadCommandLine (parseArgs flags []) →
      ∃ cfg, parseCommandLine flags = CommandLine.run cfg ∧
        main flags env = runCheck cfg env (World.initial env)) ∧
    (∀ cfg, parseCommandLine flags = CommandLine.run cfg →
      (1 ≤ cfg.wait_min ∧ cfg.wait_min ≤ 2 ^ 31 - 1) ∧
      (1 ≤ cfg.uptime_min ∧ cfg.uptime_min ≤ 2 ^ 31 - 1)) ∧
    (∀ key, key ∉ flags →
      MissingOrEmpty (parseArgs flags []) key ∧ NotPositiveInt (parseArgs flags []) key) := by
  refine ⟨?_, ?_, ?_, ?_⟩
  rotate_right
  · intro key hk
    have hl : (parseArgs flags []).lookup key = Option.none := by
      rw [lookup_parseArgs_of_not_mem key flags [] hk]; rfl
    refine ⟨Or.inl hl, ?_⟩
    rintro ⟨s, n, hs, _⟩
    rw [hl] at hs
    cases hs
  · intro hbad
    have hnot : ¬ ∃ cfg, parseCommandLine flags = CommandLine.run cfg :=
      fun h => (parseCommandLine_run_iff flags hhelp).mp h hbad
    have hnh : parseCommandLine flags ≠ CommandLine.help := by
      unfold parseCommandLine
      rw [if_neg (by rw [hhelp]; exact Bool.false_ne_true)]
      dsimp only
      split_ifs <;> simp
    unfold main
    cases hp : parseCommandLine flags with
    | help => exact absurd hp hnh
    | missing => exact ⟨rfl, rfl, rfl, rfl, rfl, rfl, rfl⟩
    | invalid => exact ⟨rfl, rfl, rfl, rfl, rfl, rfl, rfl⟩
    | run cfg => exact absurd ⟨cfg, hp⟩ hnot
  · intro hgood
    obtain ⟨cfg, hcfg⟩ := (parseCommandLine_run_iff flags hhelp).mpr hgood
    exact ⟨cfg, hcfg, main_of_run hcfg env⟩
  · intro cfg hcfg
    have h := parseCommandLine_thresholds hcfg
    simp only [INT_MAX] at h
    omega

/-- C7 on a command line with `-wait_min 0` and on one with `-uptime_min 5m`: the run
exits with status 1, nothing located, nothing launched. -/
theorem main_rejects_bad_command_line_witness :
    ((main (sampleFlags "0".toList "30".toList) (sampleEnv presentTree [])).1 = 1 ∧
      (main (sampleFlags "0".toList "30".toList) (sampleEnv presentTree [])).2.located = false) ∧
    ((main (sampleFlags "60".toList "5m".toList) (sampleEnv presentTree [])).1 = 1 ∧
      (main (sampleFlags "60".toList "5m".toList) (sampleEnv presentTree [])).2.launched = []) :=
  have h1 := (main_rejects_bad_command_line (sampleFlags "0".toList "30".toList)
    (sampleEnv presentTree []) (by decide)).1
    (Or.inr (Or.inr (Or.inr (Or.inl
      ((not_notPositiveInt_iff _ _ 0).not_right.mpr (by decide))))))
  have h2 := (main_rejects_bad_command_line (sampleFlags "60".toList "5m".toList)
    (sampleEnv presentTree []) (by decide)).1
    (Or.inr (Or.inr (Or.inr (Or.inr
      ((not_notPositiveInt_iff _ _ 0).not_right.mpr (by decide))))))
  ⟨⟨h1.1, h1.2.1⟩, ⟨h2.1, h2.2.2.2.2.2.1⟩⟩

/-- C10: `deleteOldLogs`, run by every validated invocation before the device check,
removes an entry of the directory if and only if it is a regular file whose name starts
with `BadPowerUsb_` and whose age in whole days (the whole hours since the last write,
divided by 24, truncated) is greater than 365, and it leaves the other entries as they
are. The name of the last-success record starts with `BadPowerUsb_`; so in every
validated run in which the presence check returns false and every entry of that name
is a regular file written more than 365 whole days ago, the record is gone before it
is read: the run ends as NoHistory with status 0, no record and nothing launched,
whatever the thresholds and the uptime are. -/
theorem deleteOldLogs_removes_stale_record (flags : List Str) (env : Env) (cfg : Config) :
    (∀ e ∈ env.files, (e ∈ deleteOldLogs env.files env.now 365 ↔
      ¬ (e.isRegular = true ∧ "BadPowerUsb_".toList <+: e.name ∧
        Int.tdiv (Int.tdiv (env.now - e.lastWrite) 3600) 24 > 365))) ∧
    (deleteOldLogs env.files env.now 365).Sublist env.files ∧
    "BadPowerUsb_".toList <+: timestampFileName ∧
    (parseCommandLine flags = CommandLine.run cfg →
      (isDeviceConnected env cfg.deviceInstancePath (World.initial env)).1 = false →
      (∀ e ∈ env.files, e.name = timestampFileName →
        e.isRegular = true ∧ Int.tdiv (Int.tdiv (env.now - e.lastWrite) 3600) 24 > 365) →
      (main flags env).1 = 0 ∧ (main flags env).2.launched = [] ∧
      fileExists (deleteOldLogs env.files env.now 365) timestampFileName = false ∧
      fileExists (main flags env).2.files timestampFileName = false ∧
      (main flags env).2.stdout =
        [logLine env (List.replicate 60 '-'),
         logLine env ("Starting check for USB device: ".toList ++ cfg.deviceInstancePath),
         logLine env "USB device not found. No timestamp file. Exiting.".toList]) := by
  have hold : ∀ e : FileEntry, isOldLog env.now 365 e = true ↔
      (e.isRegular = true ∧ "BadPowerUsb_".toList <+: e.name ∧
        Int.tdiv (Int.tdiv (env.now - e.lastWrite) 3600) 24 > 365) := by
    intro e
    simp only [isOldLog, fileAgeDays, Bool.and_eq_true, decide_eq_true_eq,
      List.isPrefixOf_iff_prefix, and_assoc]
  refine ⟨?_, List.filter_sublist _, ⟨"last_success.txt".toList, by decide⟩, ?_⟩
  · intro e he
    rw [← hold e]
    simp [deleteOldLogs, List.mem_filter, he]
  · intro hcfg habsent hstale
    rw [isDeviceConnected_fst] at habsent
    have hrec : (recordEntries env.files).filter (fun e => !isOldLog env.now 365 e) = [] := by
      rw [List.filter_eq_nil_iff]
      intro e he
      obtain ⟨hmem, hname⟩ := (mem_recordEntries _ _).mp he
      have hs := hstale e hmem hname
      have hpre : "BadPowerUsb_".toList <+: e.name := by
        rw [hname]; exact ⟨"last_success.txt".toList, by decide⟩
      have := (hold e).mpr ⟨hs.1, hpre, hs.2⟩
      simp [this]
    obtain ⟨h1, h2, _, h4, h5⟩ := runCheck_noRecord cfg env habsent hrec
    rw [main_of_run hcfg]
    refine ⟨h1, h2, ?_, fileExists_eq_false_of_recordEntries h4, h5⟩
    apply fileExists_eq_false_of_recordEntries
    rw [recordEntries_deleteOldLogs, hrec]

/-- C10 on a record written 400 days ago that holds the time stamp of that day, with
`wait_min` 60 and `uptime_min` 30 both reached: the record does not survive the
housekeeping, and the run launches nothing. -/
theorem deleteOldLogs_removes_stale_record_witness :
    (main (sampleFlags "60".toList "30".toList)
        (sampleEnv emptyTree [recordFile "2022-12-11 12:30:45".toList 34560000])).1 = 0 ∧
    (main (sampleFlags "60".toList "30".toList)
        (sampleEnv emptyTree [recordFile "2022-12-11 12:30:45".toList 34560000])).2.launched = [] ∧
    fileExists (deleteOldLogs
        (sampleEnv emptyTree [recordFile "2022-12-11 12:30:45".toList 34560000]).files
        (sampleEnv emptyTree [recordFile "2022-12-11 12:30:45".toList 34560000]).now 365)
      timestampFileName = false :=
  have h := (deleteOldLogs_removes_stale_record (sampleFlags "60".toList "30".toList)
    (sampleEnv emptyTree [recordFile "2022-12-11 12:30:45".toList 34560000])
    (sampleConfig 60 30)).2.2.2 (by decide) (by decide) (by decide)
  ⟨h.1, h.2.1, h.2.2.1⟩

end BadPowerUsb
